import Mathlib

/-!
Verification of the carpool-crm pipeline (filter_companies.py, enrich_companies.py,
generate_report.py, google_sheets.py) against its specification.

The Python sources are shallowly embedded: pandas cells are `Option String`
(`none` models a missing value / NaN), Python dicts are association lists with
insertion-order semantics, JSON numbers are `Rat`, and the external HTTP / Google
Sheets services are parameters of the embedded functions (a response value, an
abstract polygon-containment test, a full-range sheet overwrite).
-/

/-- A pandas cell as it appears in a row of a `dtype=str` DataFrame:
`none` models NaN (a missing value), `some s` a string value. -/
abbrev PCell := Option String

/-- Python dict with string keys, as an insertion-ordered association list.
Keys are kept unique by `pyInsert`. -/
abbrev PyDict (α : Type) := List (String × α)

/-- `m[k] = v` for a Python dict: overwrite in place if the key exists
(keeping its position), otherwise append. -/
def pyInsert {α : Type} (m : PyDict α) (k : String) (v : α) : PyDict α :=
  if m.any (fun p => p.1 == k) then
    m.map (fun p => if p.1 == k then (p.1, v) else p)
  else
    m ++ [(k, v)]

/-- Dict lookup: `m.get(k)` returning `None` when absent. -/
def pyFind? {α : Type} (m : PyDict α) (k : String) : Option α :=
  (m.find? (fun p => p.1 == k)).map (fun p => p.2)

/-- `m.get(k, d)` for a string-valued dict. -/
def pyGetD (m : PyDict String) (k d : String) : String :=
  (pyFind? m k).getD d

/-- `dict(pairs)`: build a Python dict from a list of key/value pairs
(later pairs overwrite earlier ones). -/
def pyDictOf {α : Type} (ps : List (String × α)) : PyDict α :=
  ps.foldl (fun m p => pyInsert m p.1 p.2) []

/-- Python whitespace characters matched by the regex class `\s` (ASCII range). -/
def pyIsSpace (c : Char) : Bool :=
  c == ' ' || c == '\t' || c == '\n' || c == '\x0d' || c == '\x0b' || c == '\x0c'

/-- `s.startswith(pre)`, computed on the character lists. -/
def pyStartsWith (s pre : String) : Bool :=
  pre.data.isPrefixOf s.data

/-- `s.lower()` on ASCII letters, computed character by character. -/
def pyToLower (s : String) : String :=
  ⟨s.data.map Char.toLower⟩

/-- `s.strip()`: remove leading and trailing whitespace. -/
def pyStrip (s : String) : String :=
  ⟨((s.data.dropWhile pyIsSpace).reverse.dropWhile pyIsSpace).reverse⟩

/-- Split a character list on a separator, like `str.split(sep)`:
the empty list yields one empty group. -/
def splitChar (sep : Char) : List Char → List (List Char)
  | [] => [[]]
  | c :: cs =>
    if c = sep then [] :: splitChar sep cs
    else
      match splitChar sep cs with
      | [] => [[c]]
      | g :: gs => (c :: g) :: gs

/-- `re.sub(r'\s+', '', s)`: drop every whitespace character of `s`. -/
def stripSpace (s : String) : String :=
  ⟨s.data.filter (fun c => !pyIsSpace c)⟩

/-- `s.isdigit()` for ASCII digit strings: nonempty and all characters digits. -/
def pyIsDigit (s : String) : Bool :=
  !s.data.isEmpty && s.data.all Char.isDigit

/-- `format_phone` from enrich_companies.py: `None`/empty input stays `None`;
otherwise internal whitespace is removed, a 10-character number starting with
"47" gains a leading "+", and an 8-digit all-digit number gains a "+47". -/
def format_phone (phone : Option String) : Option String :=
  match phone with
  | none => none
  | some s =>
    if s = "" then none
    else
      let t := stripSpace s
      if pyStartsWith t "47" ∧ t.length = 10 then some ("+" ++ t)
      else if t.length = 8 ∧ pyIsDigit t then some ("+47" ++ t)
      else some t

/-! ### Geocoder (filter_companies.py) -/

/-- A JSON value as `response.json()` yields it: `null`, booleans, numbers,
strings, arrays, and objects (Python dicts keyed by strings). -/
inductive Json where
  | null : Json
  | bool : Bool → Json
  | num : Rat → Json
  | str : String → Json
  | arr : List Json → Json
  | obj : List (String × Json) → Json

/-- Python truthiness of a decoded JSON value: `None`, `False`, zero, and the
empty string, list and dict are falsy; everything else is truthy. -/
def jTruthy : Json → Bool
  | .null => false
  | .bool b => b
  | .num q => decide (q ≠ 0)
  | .str s => decide (s ≠ "")
  | .arr l => !l.isEmpty
  | .obj m => !m.isEmpty

/-- The exceptions `geocode_address` can raise past its `except` clause, which
catches only `RequestException`, `KeyError` and `JSONDecodeError`. -/
inductive PyExc where
  | typeError : PyExc
  | attributeError : PyExc
deriving DecidableEq, Repr

/-- How one evaluation of the `try`-block body
`if data.get("adresser") and len(data["adresser"]) > 0:` followed by
`data["adresser"][0]["representasjonspunkt"]["lat"/"lon"]` ends:
`found lat lon` is the happy path (the extracted members are arbitrary JSON);
`noCandidates` means the condition was falsy (missing `adresser` member or a
falsy value), skipping the `if` body; `caughtKeyError` is a `KeyError` from a
dict subscript (`[0]` on a dict value, whose keys are strings, or a missing
`representasjonspunkt`/`lat`/`lon` key), caught by the `except` clause;
`raised e` is an uncaught exception: `.get` on a non-dict body
(`AttributeError`), `len()` of a number or boolean (`TypeError`), or a string
subscript of a candidate or representation point that is not a dict
(`TypeError`). -/
inductive ChainOut where
  | found : Json → Json → ChainOut
  | noCandidates : ChainOut
  | caughtKeyError : ChainOut
  | raised : PyExc → ChainOut

/-- The walk of the candidate chain on a decoded body `data`, case by case on
its shape. A truthy string, list or dict has positive length, so the `> 0`
test always passes once `len` succeeds; a truthy one-element string candidate
list yields a one-character string candidate, whose string subscript then
raises `TypeError`. The `.null` and `.arr []` inner branches are unreachable
(both values are falsy). -/
def walkBody (data : Json) : ChainOut :=
  match data with
  | .obj m =>
    match pyFind? m "adresser" with
    | none => .noCandidates
    | some v =>
      if jTruthy v then
        match v with
        | .null => .noCandidates
        | .bool _ => .raised .typeError
        | .num _ => .raised .typeError
        | .str _ => .raised .typeError
        | .obj _ => .caughtKeyError
        | .arr [] => .noCandidates
        | .arr (addr :: _) =>
          match addr with
          | .obj a =>
            match pyFind? a "representasjonspunkt" with
            | none => .caughtKeyError
            | some (.obj r) =>
              match pyFind? r "lat" with
              | none => .caughtKeyError
              | some lat =>
                match pyFind? r "lon" with
                | none => .caughtKeyError
                | some lon => .found lat lon
            | some _ => .raised .typeError
          | _ => .raised .typeError
      else .noCandidates
  | _ => .raised .attributeError

/-- One response of the Kartverket address-search API as `geocode_address`
receives it: `networkError` is a raised `requests.RequestException` (including
`raise_for_status`), `decodeError` a `json.JSONDecodeError` from
`response.json()`, and `body data` a successfully decoded JSON document of
any shape. -/
inductive ApiResponse where
  | networkError : ApiResponse
  | decodeError : ApiResponse
  | body : Json → ApiResponse

/-- The external API as a function of the query `geocode_address` builds:
address, postal code, city and the optional municipality-code filter. -/
abbrev ApiCall := String → String → String → Option String → ApiResponse

/-- A geocode cache entry `{lat, lon, timestamp}` as `geocode_address` writes
it: the coordinates are whatever JSON members the happy path extracted, or
JSON `null` for a negative result. -/
structure JsonGeoEntry where
  lat : Json
  lon : Json
  timestamp : String

/-- The geocode cache, a JSON object keyed by the normalized address string. -/
abbrev JsonGeoCache := PyDict JsonGeoEntry

/-- What one completed call of `geocode_address` produces: the returned
(lat, lon) pair, the cache after the call, and whether a network request was
issued. -/
structure JsonGeoOutcome where
  lat : Json
  lon : Json
  cache : JsonGeoCache
  networkCalled : Bool

/-- Result of one call of `geocode_address`: a normal return, or an uncaught
exception carrying the cache state at the raise - every uncaught raise happens
before any cache write, so that state is the caller's dict, unchanged. -/
inductive GeoResult where
  | ok : JsonGeoOutcome → GeoResult
  | exc : PyExc → JsonGeoCache → GeoResult

/-- The cache key `f"{address}|{postal_code}|{city}".lower().strip()`. -/
def geocodeKey (address postal_code city : String) : String :=
  pyStrip (pyToLower (address ++ "|" ++ postal_code ++ "|" ++ city))

/-- `geocode_address` from filter_companies.py: a cache hit returns the stored
values with no network call; on a miss one API call is made; a network error
or decode failure is caught, as is a `KeyError` from the candidate walk, and
each of these - like a falsy candidate list - records and returns a negative
result; a body of unexpected shape raises an uncaught `TypeError` or
`AttributeError` before anything is cached (`today` stands for
`date.today().isoformat()`). -/
def geocode_address (address postal_code city : String)
    (municipality_code : Option String) (cache : JsonGeoCache)
    (api : ApiCall) (today : String) : GeoResult :=
  let key := geocodeKey address postal_code city
  match pyFind? cache key with
  | some cached => .ok ⟨cached.lat, cached.lon, cache, false⟩
  | none =>
    match api address postal_code city municipality_code with
    | .networkError =>
        .ok ⟨.null, .null, pyInsert cache key ⟨.null, .null, today⟩, true⟩
    | .decodeError =>
        .ok ⟨.null, .null, pyInsert cache key ⟨.null, .null, today⟩, true⟩
    | .body data =>
      match walkBody data with
      | .found lat lon =>
          .ok ⟨lat, lon, pyInsert cache key ⟨lat, lon, today⟩, true⟩
      | .noCandidates =>
          .ok ⟨.null, .null, pyInsert cache key ⟨.null, .null, today⟩, true⟩
      | .caughtKeyError =>
          .ok ⟨.null, .null, pyInsert cache key ⟨.null, .null, today⟩, true⟩
      | .raised e => .exc e cache

/-- A geocode cache entry at the granularity the geocoding loop of `main`
observes it: numeric coordinates, or `none` for the JSON `null` of a negative
result. `entryJ` embeds it into `JsonGeoEntry`. -/
structure GeoEntry where
  lat : Option Rat
  lon : Option Rat
  timestamp : String
deriving DecidableEq, Repr

/-- A cache of classified entries; `cacheJ` embeds it into `JsonGeoCache`. -/
abbrev GeoCache := PyDict GeoEntry

/-- An API response classified by how the candidate walk ends, covering the
responses on which `geocode_address` completes without an uncaught exception:
`networkError` is a raised `RequestException` or `JSONDecodeError`;
`payload cs` carries, per candidate, either its numeric `representasjonspunkt`
or `none` when a key of the walk is missing (the caught `KeyError` case).
`respOfView` realizes each classified response as a full JSON response, and
`geocodeView_agrees` proves that on it `geocode_address` completes with
exactly the outcome `geocodeView` computes. -/
inductive ApiView where
  | networkError : ApiView
  | payload : List (Option (Rat × Rat)) → ApiView
deriving DecidableEq, Repr

/-- The external API over classified responses. -/
abbrev ApiFun := String → String → String → Option String → ApiView

/-- What one call of `geocodeView` produces: the returned (lat, lon) pair, the
cache after the call, and whether a network request was issued. -/
structure GeoOutcome where
  lat : Option Rat
  lon : Option Rat
  cache : GeoCache
  networkCalled : Bool
deriving DecidableEq, Repr

/-- `geocode_address` as the geocoding loop of `main` consumes it, over
classified responses and entries: a cache hit returns the stored coordinates
with no network call; on a miss the first candidate's point is returned and
cached, while a network error, a caught walk failure or an empty candidate
list is recorded as a cached negative result. `geocodeView_agrees` proves this
is what `geocode_address` computes on the JSON realization of the same cache
and responses. -/
def geocodeView (address postal_code city : String)
    (municipality_code : Option String) (cache : GeoCache)
    (api : ApiFun) (today : String) : GeoOutcome :=
  let key := geocodeKey address postal_code city
  match pyFind? cache key with
  | some cached => ⟨cached.lat, cached.lon, cache, false⟩
  | none =>
    match api address postal_code city municipality_code with
    | .payload (some (lat, lon) :: _) =>
        ⟨some lat, some lon, pyInsert cache key ⟨some lat, some lon, today⟩, true⟩
    | .payload (none :: _) =>
        ⟨none, none, pyInsert cache key ⟨none, none, today⟩, true⟩
    | .payload [] =>
        ⟨none, none, pyInsert cache key ⟨none, none, today⟩, true⟩
    | .networkError =>
        ⟨none, none, pyInsert cache key ⟨none, none, today⟩, true⟩

/-- A numeric-or-null coordinate as the JSON value it classifies. -/
def jOfOpt : Option Rat → Json
  | some q => .num q
  | none => .null

/-- A classified cache entry as the JSON entry it classifies. -/
def entryJ (e : GeoEntry) : JsonGeoEntry :=
  ⟨jOfOpt e.lat, jOfOpt e.lon, e.timestamp⟩

/-- A classified cache as the JSON cache it classifies. -/
def cacheJ (c : GeoCache) : JsonGeoCache :=
  c.map (fun p => (p.1, entryJ p.2))

/-- A classified candidate as a JSON candidate: a representation point, or an
empty object whose missing keys raise the caught `KeyError`. -/
def candJ : Option (Rat × Rat) → Json
  | some (a, b) =>
      .obj [("representasjonspunkt", .obj [("lat", .num a), ("lon", .num b)])]
  | none => .obj []

/-- A classified response as a JSON response realizing it. -/
def respOfView : ApiView → ApiResponse
  | .networkError => .networkError
  | .payload cs => .body (.obj [("adresser", .arr (cs.map candJ))])

/-! ### Geographic filter (filter_companies.py) -/

/-- A polygon as the filter observes it: its axis-aligned bounds
(`polygon.bounds` = (min_lon, min_lat, max_lon, max_lat)) and the exact
point-containment test `polygon.contains(Point(lon, lat))` delegated to the
geometry library, taken here as an abstract boolean function of the point. -/
structure Polygon where
  minLon : Rat
  minLat : Rat
  maxLon : Rat
  maxLat : Rat
  containsPt : Rat → Rat → Bool

/-- One row of the postal-code centroid table, after the numeric coercion of
its LAT/LON columns (`none` = NaN, a value `pd.to_numeric` could not parse). -/
structure PostalRow where
  POSTNR : String
  LAT : Option Rat
  LON : Option Rat
deriving DecidableEq, Repr

/-- `a + b` on rationals, computed through `Rat.divInt`.  The library's
`Rat.add` is `@[irreducible]`, which blocks kernel evaluation on concrete
inputs; this computes the same value (`qAdd_eq`). -/
def qAdd (a b : Rat) : Rat :=
  Rat.divInt (a.num * b.den + b.num * a.den) (a.den * b.den)

/-- `a - b` on rationals, computed through `Rat.divInt`; equals `a - b`
(`qSub_eq`). -/
def qSub (a b : Rat) : Rat :=
  Rat.divInt (a.num * b.den - b.num * a.den) (a.den * b.den)

/-- `x >= y` on a pandas numeric cell: comparisons with NaN are false. -/
def cellGe (x : Option Rat) (y : Rat) : Bool :=
  match x with
  | some v => y ≤ v
  | none => false

/-- `x <= y` on a pandas numeric cell: comparisons with NaN are false. -/
def cellLe (x : Option Rat) (y : Rat) : Bool :=
  match x with
  | some v => v ≤ y
  | none => false

/-- `get_postal_codes_in_polygon`: keep the postal codes whose centroid lies in
the polygon's bounding box expanded by the fixed 0.05-degree buffer.  The
Python function returns a set; this embedding returns the list of codes in row
order, used only through membership. -/
def get_postal_codes_in_polygon (polygon : Polygon) (postal_df : List PostalRow) :
    List String :=
  if postal_df.isEmpty then []
  else
    let buffer : Rat := Rat.divInt 5 100
    let candidates := postal_df.filter (fun row =>
      cellGe row.LON (qSub polygon.minLon buffer) &&
      cellLe row.LON (qAdd polygon.maxLon buffer) &&
      cellGe row.LAT (qSub polygon.minLat buffer) &&
      cellLe row.LAT (qAdd polygon.maxLat buffer))
    (candidates.filter (fun row => row.LAT.isSome && row.LON.isSome)).map
      (fun row => row.POSTNR)

/-- The columns loaded for one registry row (primary units and sub-units agree
after the renaming in `load_company_data`); every cell may be NaN. -/
structure BaseRow where
  organisasjonsnummer : PCell
  navn : PCell
  antallAnsatte : PCell
  adresse : PCell
  postnummer : PCell
  poststed : PCell
  kommunenummer : PCell
  naeringskode : PCell
  naeringskode_beskrivelse : PCell
deriving DecidableEq, Repr

/-- A combined registry row: a `BaseRow` plus the `source` column that
`load_company_data` sets to "hovedenhet" or "underenhet". -/
structure CompanyRow where
  base : BaseRow
  source : String
deriving DecidableEq, Repr

/-- `load_company_data`: tag the two registry tables with their `source`,
concatenate them, and (when the candidate set is non-empty) keep only rows
whose `postnummer` is in it (`isin`: a NaN postal code never matches). -/
def load_company_data (enheter underenheter : List BaseRow)
    (postal_codes : List String) : List CompanyRow :=
  let combined :=
    enheter.map (fun r => CompanyRow.mk r "hovedenhet") ++
    underenheter.map (fun r => CompanyRow.mk r "underenhet")
  if postal_codes.isEmpty then combined
  else combined.filter (fun row =>
    match row.base.postnummer with
    | some p => postal_codes.contains p
    | none => false)

/-- Parse an optionally signed ASCII integer literal, the integer-valued
fragment of `pd.to_numeric(..., errors="coerce")` that the registry snapshot's
employee counts exercise; anything else coerces to NaN (`none`). -/
def pyToNumericInt (cell : PCell) : Option Int :=
  match cell with
  | none => none
  | some s =>
    let digits := if pyStartsWith s "-" then s.data.drop 1 else s.data
    if digits.isEmpty ∨ ¬ digits.all Char.isDigit then none
    else
      let n : Int := digits.foldl (fun acc c => acc * 10 + (c.toNat - '0'.toNat : Int)) 0
      if pyStartsWith s "-" then some (-n) else some n

/-- The employee-count filter of `main`: coerce `antallAnsatte` to a number and
keep rows with `min_employees <= n <= max_employees` (NaN fails both), carrying
the parsed count alongside the row as the `antallAnsatte_num` column. -/
def employeeFilter (df : List CompanyRow) (minEmployees maxEmployees : Int) :
    List (CompanyRow × Int) :=
  df.filterMap (fun row =>
    match pyToNumericInt row.base.antallAnsatte with
    | some n =>
      if minEmployees ≤ n ∧ n ≤ maxEmployees then some (row, n) else none
    | none => none)

/-- A cell interpolated into an f-string: NaN prints as "nan". -/
def fmtCell (cell : PCell) : String :=
  match cell with
  | none => "nan"
  | some s => s

/-- One row of the filter's output CSV. -/
structure ResultRow where
  organisasjonsnummer : PCell
  navn : PCell
  antallAnsatte : Int
  adresse : String
  latitude : Rat
  longitude : Rat
  naeringskode : PCell
  naeringskode_beskrivelse : PCell
  source : String
deriving DecidableEq, Repr

/-- The result dict appended by `main` for a row that survives geocoding and
the point-in-polygon test. -/
def mkResult (row : CompanyRow) (n : Int) (lat lon : Rat) : ResultRow :=
  { organisasjonsnummer := row.base.organisasjonsnummer
    navn := row.base.navn
    antallAnsatte := n
    adresse := fmtCell row.base.adresse ++ ", " ++ fmtCell row.base.postnummer
      ++ " " ++ fmtCell row.base.poststed
    latitude := lat
    longitude := lon
    naeringskode := row.base.naeringskode
    naeringskode_beskrivelse := row.base.naeringskode_beskrivelse
    source := row.source }

/-- `addresses_to_check`: rows whose address is neither NaN nor empty; rows
failing this test are never geocoded and never emitted. -/
def addressRows (df : List (CompanyRow × Int)) : List (CompanyRow × Int) :=
  df.filter (fun p =>
    match p.1.base.adresse with
    | some a => a ≠ ""
    | none => false)

/-- The geocoding loop of `main`: thread the cache through the geocode call
row by row; a row is emitted when both coordinates are present and
`polygon.contains(Point(lon, lat))` holds. -/
def geocodeFold (polygon : Polygon) (api : ApiFun) (today : String) :
    List (CompanyRow × Int) → GeoCache → List ResultRow × GeoCache
  | [], cache => ([], cache)
  | p :: rest, cache =>
    let out := geocodeView (fmtCell p.1.base.adresse) (fmtCell p.1.base.postnummer)
      (fmtCell p.1.base.poststed) p.1.base.kommunenummer cache api today
    let next := geocodeFold polygon api today rest out.cache
    match out.lat, out.lon with
    | some lat, some lon =>
      if polygon.containsPt lon lat then (mkResult p.1 p.2 lat lon :: next.1, next.2)
      else next
    | _, _ => next

/-- Lexicographic comparison of character lists by code point, the order
Python uses on strings. -/
def charListLe : List Char → List Char → Bool
  | [], _ => true
  | _ :: _, [] => false
  | a :: as, b :: bs =>
    if a < b then true
    else if b < a then false
    else charListLe as bs

/-- `a <= b` on Python strings: lexicographic by code point. -/
def pyStrLe (a b : String) : Bool :=
  charListLe a.data b.data

/-- Insert `x` into a sorted list, before the first element not strictly below
it; with a total preorder this is the insertion step of a stable sort. -/
def insertSorted {α : Type} (le : α → α → Bool) (x : α) : List α → List α
  | [] => [x]
  | y :: ys =>
    if le y x && !(le x y) then y :: insertSorted le x ys
    else x :: y :: ys

/-- Stable insertion sort.  Python's `list.sort` and `sorted` are stable, and
any two stable sorts under the same total preorder return the same list, so
this computes exactly what the scripts' sorts compute. -/
def sortBy {α : Type} (le : α → α → Bool) : List α → List α
  | [] => []
  | x :: xs => insertSorted le x (sortBy le xs)

/-- Keep the rows whose key has not been seen yet, accumulating the seen keys:
the recursion of `drop_duplicates(subset=[...], keep="first")`. -/
def dropDupsByAux {α β : Type} [DecidableEq β] (f : α → β) (seen : List β) :
    List α → List α
  | [] => []
  | x :: xs =>
    if seen.contains (f x) then dropDupsByAux f seen xs
    else x :: dropDupsByAux f (f x :: seen) xs

/-- Keep the first occurrence of each key, dropping later duplicates
(`drop_duplicates(subset=[...], keep="first")`). -/
def dropDupsBy {α β : Type} [DecidableEq β] (f : α → β) (l : List α) : List α :=
  dropDupsByAux f [] l

/-- The dedup step of `main`: sort by `source` ascending, then keep the first
row for each formatted address. -/
def dedupResults (results : List ResultRow) : List ResultRow :=
  dropDupsBy (fun r => r.adresse)
    (sortBy (fun a b => pyStrLe a.source b.source) results)

/-- The geocode-loop results of one run of filter_companies.py `main`, before
deduplication. -/
def filterResults (polygon : Polygon) (postal_df : List PostalRow)
    (enheter underenheter : List BaseRow) (minEmployees maxEmployees : Int)
    (cache : GeoCache) (api : ApiFun) (today : String) : List ResultRow :=
  (geocodeFold polygon api today
    (addressRows (employeeFilter
      (load_company_data enheter underenheter
        (get_postal_codes_in_polygon polygon postal_df))
      minEmployees maxEmployees))
    cache).1

/-- The rows filter_companies.py `main` writes to the output CSV: empty when no
postal code or no company passes the coarse filters (the script returns early),
otherwise the deduplicated geocode results. -/
def runFilter (polygon : Polygon) (postal_df : List PostalRow)
    (enheter underenheter : List BaseRow) (minEmployees maxEmployees : Int)
    (cache : GeoCache) (api : ApiFun) (today : String) : List ResultRow :=
  if (get_postal_codes_in_polygon polygon postal_df).isEmpty then []
  else if (employeeFilter
      (load_company_data enheter underenheter
        (get_postal_codes_in_polygon polygon postal_df))
      minEmployees maxEmployees).isEmpty then []
  else
    dedupResults (filterResults polygon postal_df enheter underenheter
      minEmployees maxEmployees cache api today)

/-! ### Google Sheets sync (google_sheets.py) -/

/-- `SCRIPT_COLUMNS`: the pipeline-owned columns, overwritten on every sync. -/
def SCRIPT_COLUMNS : List String :=
  ["cluster_id", "cluster_name", "import_timestamp", "organisasjonsnummer",
   "navn", "antallAnsatte", "adresse", "latitude", "longitude", "naeringskode",
   "naeringskode_beskrivelse", "hjemmeside", "epostadresse", "proff_url",
   "kontakt_navn", "kontakt_rolle", "kontakt_epost", "kontakt_telefon",
   "salgsnotater"]

/-- `SALES_COLUMNS`: the human-owned sales columns preserved across syncs. -/
def SALES_COLUMNS : List String :=
  ["status", "sist_kontaktet", "neste_oppfolging", "interne_notater", "ansvarlig"]

/-- `ALL_COLUMNS = SCRIPT_COLUMNS + SALES_COLUMNS`. -/
def ALL_COLUMNS : List String := SCRIPT_COLUMNS ++ SALES_COLUMNS

/-- A sheet row: the list of its cell values. -/
abbrev SheetRow := List String

/-- One row of the CSV handed to `sync_companies`, as the association of column
names to cells; a column absent from the CSV has no entry, a present-but-NaN
cell is `some none`. -/
abbrev CsvRow := List (String × PCell)

/-- `csv_row.get(col, "")` returning the raw cell (`""` for an absent column). -/
def csvCell (r : CsvRow) (col : String) : PCell :=
  match (r.find? (fun p => p.1 == col)).map (fun p => p.2) with
  | none => some ""
  | some c => c

/-- `str(csv_row.get(col, ""))`: Python stringification, under which a NaN cell
becomes the literal string "nan". -/
def csvStr (r : CsvRow) (col : String) : String :=
  match csvCell r col with
  | none => "nan"
  | some s => s

/-- The org-number key `sync_companies` computes for a CSV row:
`str(csv_row.get("organisasjonsnummer", ""))`. -/
def orgKey (r : CsvRow) : String := csvStr r "organisasjonsnummer"

/-- `str.title()` on ASCII letters: the first letter of every alphabetic run is
uppercased, the rest lowercased. `prevAlpha` says whether the previous
character was alphabetic. -/
def titleChars (prevAlpha : Bool) : List Char → List Char
  | [] => []
  | c :: cs =>
    if c.isAlpha then
      (if prevAlpha then c.toLower else c.toUpper) :: titleChars true cs
    else
      c :: titleChars false cs

/-- `str(val).title()` as applied to the company name. -/
def pyTitle (s : String) : String := ⟨titleChars false s.data⟩

/-- The value `sync_companies` writes for a script column: the CSV cell with
NaN mapped to "", the company name additionally put in title case. -/
def scriptVal (r : CsvRow) (col : String) : String :=
  let v := match csvCell r col with
    | none => ""
    | some s => s
  if col = "navn" ∧ v ≠ "" then pyTitle v else v

/-- Pad a fetched sheet row with trailing "" cells up to the header length
(`row + [""] * (len(headers) - len(row))`). -/
def padRow (n : Nat) (row : SheetRow) : SheetRow :=
  row ++ List.replicate (n - row.length) ""

/-- `dict(zip(headers, row_padded))` for one existing sheet row. -/
def rowDict (headers : List String) (row : SheetRow) : PyDict String :=
  pyDictOf (headers.zip (padRow headers.length row))

/-- The map from org number to existing row built by `sync_companies` (rows
with a blank org number are unkeyable and skipped; a later row with the same
org number overwrites an earlier one). -/
def buildExistingMap (data : List SheetRow) : PyDict (PyDict String) :=
  match data with
  | [] => []
  | headers :: rows =>
    rows.foldl (fun m row =>
      let d := rowDict headers row
      let orgnr := pyGetD d "organisasjonsnummer" ""
      if orgnr ≠ "" then pyInsert m orgnr d else m) []

/-- `_ensure_headers` followed by the re-read in `sync_companies`: the header
row is forced to `ALL_COLUMNS`, the data rows are left as they are. -/
def ensureHeaders (data : List SheetRow) : List SheetRow :=
  match data with
  | [] => [ALL_COLUMNS]
  | h :: t => if h = ALL_COLUMNS then h :: t else ALL_COLUMNS :: t

/-- The sales-column value `sync_companies` writes under org key `k`: carried
over from the existing sheet row when `k` is in the map, initialized for a new
company otherwise. -/
def salesVal (em : PyDict (PyDict String)) (k col : String) : String :=
  match pyFind? em k with
  | some existing => pyGetD existing col ""
  | none => if col = "status" then "not started yet" else ""

/-- The row `sync_companies` builds for one CSV row: cluster columns from the
run's parameters, script columns copied from the CSV, sales columns carried
over from the existing sheet row with the same org number or initialized for a
new company, assembled in `ALL_COLUMNS` order. -/
def newRow (em : PyDict (PyDict String)) (cluster_id area_name import_timestamp : String)
    (r : CsvRow) : SheetRow :=
  ALL_COLUMNS.map (fun col =>
    if col = "cluster_id" then cluster_id
    else if col = "cluster_name" then area_name
    else if col = "import_timestamp" then import_timestamp
    else if SALES_COLUMNS.contains col then salesVal em (orgKey r) col
    else scriptVal r col)

/-- `[existing.get(col, "") for col in ALL_COLUMNS]`: an existing row written
back out verbatim. -/
def rowOfDict (d : PyDict String) : SheetRow :=
  ALL_COLUMNS.map (fun col => pyGetD d col "")

/-- The index of the `navn` column, `ALL_COLUMNS.index("navn")`. -/
def navnIndex : Nat := List.indexOf "navn" ALL_COLUMNS

/-- The sort key of the final `new_rows.sort`: the company name lowercased. -/
def sheetSortKey (row : SheetRow) : String := pyToLower (row.getD navnIndex "")

/-- The statistics `sync_companies` returns, next to the written rows. -/
structure SyncResult where
  rows : List SheetRow
  total : Nat
  newCount : Nat
  updatedCount : Nat
  preservedCount : Nat
deriving DecidableEq, Repr

/-- `sync_companies` from google_sheets.py, with the spreadsheet API abstracted
to a full-range overwrite: ensure the headers, key the existing rows by org
number, rebuild a row per CSV row with a non-blank org key (merging sales
columns), append the existing rows whose org number the CSV lacks, and sort by
company name. -/
def sync_companies (sheet : List SheetRow) (csv : List CsvRow)
    (area_name cluster_id import_timestamp : String) : SyncResult :=
  let data := ensureHeaders sheet
  let em := buildExistingMap data
  let kept := csv.filter (fun r => orgKey r ≠ "")
  let builtRows := kept.map (newRow em cluster_id area_name import_timestamp)
  let csvOrgnrs := csv.map orgKey
  let preservedEntries := em.filter (fun p => ¬ csvOrgnrs.contains p.1)
  let preservedRows := preservedEntries.map (fun p => rowOfDict p.2)
  let allRows := builtRows ++ preservedRows
  { rows := sortBy (fun a b => pyStrLe (sheetSortKey a) (sheetSortKey b)) allRows
    total := allRows.length
    newCount := kept.countP (fun r => (pyFind? em (orgKey r)).isNone)
    updatedCount := kept.countP (fun r => (pyFind? em (orgKey r)).isSome)
    preservedCount := preservedRows.length }

/-- The sheet contents after a sync: the header row plus the written data rows
(the API call overwrites the sheet's data range from A1). -/
def syncSheetState (sheet : List SheetRow) (csv : List CsvRow)
    (area_name cluster_id import_timestamp : String) : List SheetRow :=
  ALL_COLUMNS :: (sync_companies sheet csv area_name cluster_id import_timestamp).rows

/-- The cell of a sheet row under a column name, reading rows in
`ALL_COLUMNS` order (absent trailing cells are empty). -/
def cellOf (row : SheetRow) (col : String) : String :=
  row.getD (List.indexOf col ALL_COLUMNS) ""

/-- A sheet row with its volatile columns blanked: `import_timestamp` and
`cluster_id` are the columns a re-sync may legitimately refresh. -/
def scrubVolatile (row : SheetRow) : SheetRow :=
  ALL_COLUMNS.map (fun col =>
    if col = "import_timestamp" ∨ col = "cluster_id" then "" else cellOf row col)

/-! ### Report map markers (enrich_companies.py / generate_report.py) -/

/-- Python truthiness of a pandas cell from a `dtype=str` frame: the empty
string is falsy, any other string is truthy, and a NaN float is truthy. -/
def pyTruthy (cell : PCell) : Bool :=
  match cell with
  | none => true
  | some s => s ≠ ""

/-- `str(cell)`: a NaN cell stringifies to "nan". -/
def pyStrCell (cell : PCell) : String :=
  match cell with
  | none => "nan"
  | some s => s

/-- `clean_value` from enrich_companies.py: NaN, `None` and the literal string
"nan" (case-insensitive) become "", anything else is stringified and
stripped. -/
def clean_value (cell : PCell) : String :=
  match cell with
  | none => ""
  | some s => if pyToLower s = "nan" then "" else pyStrip s

/-- Parse an optionally signed decimal literal (`digits`, `digits.`,
`digits.digits`, `.digits`), the fragment of Python `float()` the pipeline's
coordinate strings exercise; `none` models a raised `ValueError`. -/
def parseDecimal (s : String) : Option Rat :=
  let natOf := fun (cs : List Char) =>
    cs.foldl (fun acc c => acc * 10 + (c.toNat - '0'.toNat)) (0 : Nat)
  let core := fun (body : List Char) =>
    match splitChar '.' body with
    | [i] =>
      if i.isEmpty ∨ ¬ i.all Char.isDigit then none
      else some (Rat.divInt (natOf i) 1)
    | [i, f] =>
      if (i.isEmpty ∧ f.isEmpty) ∨ ¬ i.all Char.isDigit ∨
          ¬ f.all Char.isDigit then none
      else some (Rat.divInt (natOf i * 10 ^ f.length + natOf f) (10 ^ f.length))
    | _ => none
  if pyStartsWith s "-" then (core (s.data.drop 1)).map (fun q => -q)
  else if pyStartsWith s "+" then core (s.data.drop 1)
  else core s.data

/-- `float(cell)`: `float` of a NaN float succeeds and stays NaN
(`some none`); `float` of a string parses it or raises (`none`). -/
def floatOfCell (cell : PCell) : Option (Option Rat) :=
  match cell with
  | none => some none
  | some s => (parseDecimal s).map (fun q => some q)

/-- A map marker embedded in the report JSON; a `none` coordinate is the JSON
`NaN` that `json.dumps` emits for a NaN float.  The derived score field of the
area report's markers is elided here. -/
structure Marker where
  lat : Option Rat
  lon : Option Rat
  name : String
  employees : String
  address : String
deriving DecidableEq, Repr

/-- The marker-relevant columns of one row of the enriched DataFrame
`generate_html_report` receives (string cells or NaN). -/
structure EnrichRow where
  navn : PCell
  antallAnsatte : PCell
  adresse : PCell
  latitude : PCell
  longitude : PCell
deriving DecidableEq, Repr

/-- The marker loop of `generate_html_report` (enrich_companies.py): a marker
is appended when `lat and lon` is truthy, and a `ValueError`/`TypeError` from
the float conversions silently skips the row. -/
def mapMarkersEnrich : List EnrichRow → List Marker
  | [] => []
  | r :: rest =>
    let tail := mapMarkersEnrich rest
    if pyTruthy r.latitude && pyTruthy r.longitude then
      match floatOfCell r.latitude, floatOfCell r.longitude with
      | some la, some lo =>
        ⟨la, lo, clean_value r.navn, clean_value r.antallAnsatte,
          clean_value r.adresse⟩ :: tail
      | _, _ => tail
    else tail

/-- The marker-relevant columns of one row of the area report's DataFrame: the
CSV is read with `dtype=str` and `antallAnsatte` is then coerced to an
integer with NaN filled as 0. -/
structure ReportRow where
  navn : PCell
  antallAnsatte : Int
  adresse : PCell
  latitude : PCell
  longitude : PCell
deriving DecidableEq, Repr

/-- The marker loop of `generate_html` (generate_report.py), which runs over
the score-sorted frame (sorting permutes rows and never changes whether a row
contributes a marker).  There is no exception handler here: a coordinate
string `float()` cannot parse raises `ValueError` and aborts report
generation, modelled as `none`. -/
def mapMarkersReport : List ReportRow → Option (List Marker)
  | [] => some []
  | r :: rest =>
    if pyTruthy r.latitude && pyTruthy r.longitude then
      match floatOfCell r.latitude, floatOfCell r.longitude with
      | some la, some lo =>
        (mapMarkersReport rest).map (fun ms =>
          ⟨la, lo, pyStrCell r.navn, toString r.antallAnsatte,
            pyStrCell r.adresse⟩ :: ms)
      | _, _ => none
    else mapMarkersReport rest

/-- Stated from the amended claim: the marker the enrich report emits for one
row, if any — present exactly when both coordinate cells are truthy and both
convert to floats. -/
def markerOfEnrichRow (r : EnrichRow) : Option Marker :=
  if pyTruthy r.latitude && pyTruthy r.longitude then
    match floatOfCell r.latitude, floatOfCell r.longitude with
    | some la, some lo =>
      some ⟨la, lo, clean_value r.navn, clean_value r.antallAnsatte,
        clean_value r.adresse⟩
    | _, _ => none
  else none

/-- Stated from the amended claim: the marker the area report emits for one
row, if any. -/
def markerOfReportRow (r : ReportRow) : Option Marker :=
  if pyTruthy r.latitude && pyTruthy r.longitude then
    match floatOfCell r.latitude, floatOfCell r.longitude with
    | some la, some lo =>
      some ⟨la, lo, pyStrCell r.navn, toString r.antallAnsatte,
        pyStrCell r.adresse⟩
    | _, _ => none
  else none

/-- A report row on which the area report's unguarded float conversions cannot
raise: if both coordinate cells are truthy, both convert. -/
def reportRowOk (r : ReportRow) : Bool :=
  !(pyTruthy r.latitude && pyTruthy r.longitude) ||
    ((floatOfCell r.latitude).isSome && (floatOfCell r.longitude).isSome)

/-! ### Concrete instances used in closed statements -/

/-- An existing sheet row for org number "111" with human-entered sales data. -/
def exRow111 : SheetRow :=
  ["c1", "old", "t0", "111", "Old Co", "3", "Adr 1", "", "", "", "", "", "",
   "", "", "", "", "", "", "Interessert", "2026-01-02", "", "notat", "Bob"]

/-- An existing sheet row for org number "222". -/
def exRow222 : SheetRow :=
  ["c1", "old", "t0", "222", "Other Co", "7", "Adr 2", "", "", "", "", "", "",
   "", "", "", "", "", "", "Kontaktet", "", "", "", ""]

/-- A sheet holding the two rows above under the expected headers. -/
def exSheet : List SheetRow := [ALL_COLUMNS, exRow111, exRow222]

/-- An incoming batch containing org number "111" with refreshed pipeline
data. -/
def exCsv : List CsvRow :=
  [[("organisasjonsnummer", some "111"), ("navn", some "new co"),
    ("adresse", some "Ny gate 2")]]

/-- An existing sheet row whose org-number cell is the literal string "nan". -/
def nanRow : SheetRow :=
  ["c1", "old", "t0", "nan", "Old Co", "3", "Adr 1", "", "", "", "", "", "",
   "", "", "", "", "", "", "Interessert", "", "", "", ""]

/-- A sheet holding only the "nan" row. -/
def nanSheet : List SheetRow := [ALL_COLUMNS, nanRow]

/-- An incoming batch whose single row has a missing (NaN) org-number cell -
`str()` turns it into the key "nan" while the written cell is blanked. -/
def nanCsv : List CsvRow :=
  [[("organisasjonsnummer", (none : PCell)), ("navn", some "new co")]]

/-! ## Lemmas: Python dict semantics -/

theorem pyFind?_cons {α : Type} (p : String × α) (m : PyDict α) (k : String) :
    pyFind? (p :: m) k = if p.1 = k then some p.2 else pyFind? m k := by
  by_cases h : p.1 = k <;> simp [pyFind?, List.find?_cons, h]

theorem pyFind?_update {α : Type} (m : PyDict α) (k k' : String) (v : α) :
    pyFind? (m.map (fun p => if p.1 == k then (p.1, v) else p)) k' =
      if k' = k then (pyFind? m k).map (fun _ => v) else pyFind? m k' := by
  induction m with
  | nil => by_cases h : k' = k <;> simp [pyFind?, h]
  | cons p m ih =>
    by_cases hp : p.1 = k
    · by_cases hk : k' = k
      · simp [hp, hk, pyFind?_cons]
      · have hk2 : ¬ k = k' := fun h => hk h.symm
        have hp' : p.1 ≠ k' := by rw [hp]; exact hk2
        simp only [List.map_cons, beq_iff_eq, hp, if_true, pyFind?_cons, hp',
          if_false, hk, hk2]
        simpa [beq_iff_eq, hk] using ih
    · by_cases hq : p.1 = k'
      · have hk : ¬ k' = k := fun h => hp (hq.trans h)
        simp [hp, hq, hk, pyFind?_cons]
      · simp only [List.map_cons, beq_iff_eq, hp, if_false, pyFind?_cons, hq]
        simpa [beq_iff_eq] using ih

theorem pyFind?_isSome_of_any {α : Type} {m : PyDict α} {k : String}
    (h : m.any (fun p => p.1 == k) = true) : (pyFind? m k).isSome := by
  obtain ⟨p, hp, hpk⟩ := List.any_eq_true.mp h
  have : (m.find? (fun p => p.1 == k)).isSome :=
    List.find?_isSome.mpr ⟨p, hp, hpk⟩
  simpa [pyFind?] using this

theorem find?_eq_none_of_not_any {α : Type} {m : PyDict α} {k : String}
    (h : m.any (fun p => p.1 == k) = false) :
    m.find? (fun p => p.1 == k) = none := by
  rw [List.find?_eq_none]
  intro p hp hpk
  have htrue : m.any (fun p => p.1 == k) = true := List.any_eq_true.mpr ⟨p, hp, hpk⟩
  rw [h] at htrue
  exact Bool.false_ne_true htrue

theorem pyFind?_eq_none_of_not_any {α : Type} {m : PyDict α} {k : String}
    (h : m.any (fun p => p.1 == k) = false) : pyFind? m k = none := by
  simp [pyFind?, find?_eq_none_of_not_any h]

theorem pyFind?_pyInsert {α : Type} (m : PyDict α) (k k' : String) (v : α) :
    pyFind? (pyInsert m k v) k' = if k' = k then some v else pyFind? m k' := by
  unfold pyInsert
  by_cases hany : m.any (fun p => p.1 == k) = true
  · rw [if_pos hany, pyFind?_update]
    by_cases hk : k' = k
    · obtain ⟨w, hw⟩ := Option.isSome_iff_exists.mp (pyFind?_isSome_of_any hany)
      simp [hk, hw]
    · simp [hk]
  · rw [if_neg hany]
    have hfind : m.find? (fun p => p.1 == k) = none :=
      find?_eq_none_of_not_any (Bool.eq_false_iff.mpr hany)
    by_cases hk : k' = k
    · subst hk
      simp [pyFind?, List.find?_append, hfind, List.find?]
    · have hk2 : ¬ k = k' := fun h => hk h.symm
      have hbeq : (k == k') = false := beq_eq_false_iff_ne.mpr hk2
      have h1 : List.find? (fun p => p.1 == k') [(k, v)] = none := by
        simp [List.find?, hbeq]
      simp [pyFind?, List.find?_append, h1, hk]

theorem pyFind?_mem {α : Type} {m : PyDict α} {k : String} {v : α}
    (h : pyFind? m k = some v) : (k, v) ∈ m := by
  simp only [pyFind?, Option.map_eq_some'] at h
  obtain ⟨p, hp, hv⟩ := h
  have hmem := List.mem_of_find?_eq_some hp
  have hk : p.1 = k := by simpa using List.find?_some hp
  have : p = (k, v) := by
    cases p
    simp_all
  rwa [this] at hmem

theorem mem_pyInsert {α : Type} {m : PyDict α} {k : String} {v : α}
    {P : String × α → Prop} (hm : ∀ p ∈ m, P p) (hkv : P (k, v)) :
    ∀ p ∈ pyInsert m k v, P p := by
  intro p hp
  unfold pyInsert at hp
  by_cases hany : m.any (fun q => q.1 == k) = true
  · rw [if_pos hany] at hp
    obtain ⟨q, hq, hpq⟩ := List.mem_map.mp hp
    by_cases hqk : q.1 = k
    · have : p = (k, v) := by rw [← hpq]; simp [hqk]
      rwa [this]
    · have : p = q := by rw [← hpq]; simp [hqk]
      exact this ▸ hm q hq
  · rw [if_neg hany] at hp
    rcases List.mem_append.mp hp with h | h
    · exact hm p h
    · have : p = (k, v) := by simpa using h
      rwa [this]

/-! ## C8: phone formatting -/

/-- C8: `format_phone` maps "12345678" to "+4712345678" and "4712345678" to
"+4712345678", and maps empty or null input to null; in general it strips
internal whitespace, prefixes an 8-digit all-digit number with "+47", and
prepends "+" to a 10-character number that starts with the country code
"47". -/
theorem C8_format_phone :
    format_phone none = none ∧
    format_phone (some "") = none ∧
    format_phone (some "12345678") = some "+4712345678" ∧
    format_phone (some "4712345678") = some "+4712345678" ∧
    (∀ s : String, s ≠ "" → pyStartsWith (stripSpace s) "47" = true →
      (stripSpace s).length = 10 →
      format_phone (some s) = some ("+" ++ stripSpace s)) ∧
    (∀ s : String, s ≠ "" → (stripSpace s).length = 8 →
      pyIsDigit (stripSpace s) = true →
      format_phone (some s) = some ("+47" ++ stripSpace s)) := by
  refine ⟨rfl, rfl, by decide, by decide, ?_, ?_⟩
  · intro s hs h47 hlen
    simp [format_phone, hs, h47, hlen]
  · intro s hs hlen hdig
    have h10 : ¬ (pyStartsWith (stripSpace s) "47" = true ∧
        (stripSpace s).length = 10) := by
      rintro ⟨-, h⟩
      rw [hlen] at h
      exact absurd h (by decide)
    simp [format_phone, hs, h10, hlen, hdig]

/-- Witness for C8: the two general formatting rules applied at concrete
whitespace-laden inputs. -/
theorem C8_format_phone_witness :
    format_phone (some "4712 345 678") = some "+4712345678" ∧
    format_phone (some "12 34 56 78") = some "+4712345678" :=
  ⟨C8_format_phone.2.2.2.2.1 "4712 345 678" (by decide) (by rfl) (by rfl),
   C8_format_phone.2.2.2.2.2 "12 34 56 78" (by decide) (by rfl) (by rfl)⟩

/-! ## C4, C5: geocoder cache behaviour -/

/-- C4: when the derived key is in the cache, `geocode_address` returns exactly
the stored lat/lon (also when the stored value is a negative result, JSON null
coordinates), performs no network call, raises nothing, and leaves the cache
unchanged. -/
theorem C4_geocode_cache_hit (address postal_code city : String)
    (municipality_code : Option String) (cache : JsonGeoCache) (api : ApiCall)
    (today : String) (e : JsonGeoEntry)
    (h : pyFind? cache (geocodeKey address postal_code city) = some e) :
    geocode_address address postal_code city municipality_code cache api today =
      GeoResult.ok ⟨e.lat, e.lon, cache, false⟩ := by
  simp [geocode_address, h]

/-- Witness for C4: a concrete hit on a cached negative result, under an API
whose response holds a well-formed candidate that is never consulted. -/
theorem C4_geocode_cache_hit_witness :
    geocode_address "Storgata 1" "2000" "Lillestrøm" none
      [(geocodeKey "Storgata 1" "2000" "Lillestrøm",
        JsonGeoEntry.mk Json.null Json.null "2026-01-01")]
      (fun _ _ _ _ => ApiResponse.body (Json.obj [("adresser", Json.arr
        [Json.obj [("representasjonspunkt",
          Json.obj [("lat", Json.num 1), ("lon", Json.num 2)])]])]))
      "2026-02-02" =
      GeoResult.ok ⟨Json.null, Json.null,
        [(geocodeKey "Storgata 1" "2000" "Lillestrøm",
          JsonGeoEntry.mk Json.null Json.null "2026-01-01")], false⟩ :=
  C4_geocode_cache_hit _ _ _ _ _ _ _ _ (by rfl)

/-- Counterexample to C5 as stated: on a cache miss whose response decodes to
a JSON array - a malformed payload - `geocode_address` raises an uncaught
`AttributeError` (`.get` on a list), returns no NotFound result, and writes no
negative cache entry: the exception propagates to the caller. -/
theorem C5_geocode_counterexample :
    pyFind? ([] : JsonGeoCache) (geocodeKey "Gate 2" "1900" "By") = none ∧
    geocode_address "Gate 2" "1900" "By" none []
      (fun _ _ _ _ => ApiResponse.body (Json.arr [])) "2026-03-03" =
      GeoResult.exc PyExc.attributeError [] ∧
    ∀ out, geocode_address "Gate 2" "1900" "By" none []
      (fun _ _ _ _ => ApiResponse.body (Json.arr [])) "2026-03-03" ≠
      GeoResult.ok out := by
  refine ⟨rfl, rfl, fun out h => ?_⟩
  have h2 : GeoResult.exc PyExc.attributeError [] = GeoResult.ok out := h
  cases h2

/-- C5 (amended): on a cache miss, `geocode_address` returns NotFound
(null, null), writes a negative entry (null lat, null lon, today) under the
derived key, raises nothing and reports a network call, whenever the lookup
raises a network error, the response fails JSON decoding, or the decoded body
is a JSON object on which the candidate walk fails only in the ways the code
handles: a missing or falsy `adresser` member, a dict-valued `adresser` (its
`[0]` subscript raises the caught `KeyError`), or a first list candidate that
is a dict without `representasjonspunkt`, or whose dict representation point
lacks `lat` or `lon`. Bodies of other shapes instead raise an uncaught
`TypeError` or `AttributeError` with no cache write
(`C5_geocode_counterexample`). -/
theorem C5_geocode_failure_cached (address postal_code city : String)
    (municipality_code : Option String) (cache : JsonGeoCache) (api : ApiCall)
    (today : String)
    (hmiss : pyFind? cache (geocodeKey address postal_code city) = none)
    (hfail : api address postal_code city municipality_code = ApiResponse.networkError ∨
      api address postal_code city municipality_code = ApiResponse.decodeError ∨
      ∃ m, api address postal_code city municipality_code =
          ApiResponse.body (Json.obj m) ∧
        (pyFind? m "adresser" = none ∨
         (∃ v, pyFind? m "adresser" = some v ∧ jTruthy v = false) ∨
         (∃ d, pyFind? m "adresser" = some (Json.obj d)) ∨
         (∃ a rest, pyFind? m "adresser" = some (Json.arr (Json.obj a :: rest)) ∧
           (pyFind? a "representasjonspunkt" = none ∨
            ∃ r, pyFind? a "representasjonspunkt" = some (Json.obj r) ∧
              (pyFind? r "lat" = none ∨
               ∃ la, pyFind? r "lat" = some la ∧ pyFind? r "lon" = none))))) :
    geocode_address address postal_code city municipality_code cache api today =
      GeoResult.ok ⟨Json.null, Json.null,
        pyInsert cache (geocodeKey address postal_code city)
          ⟨Json.null, Json.null, today⟩, true⟩ := by
  have hneg : ∀ data, api address postal_code city municipality_code =
        ApiResponse.body data →
      (walkBody data = ChainOut.noCandidates ∨
        walkBody data = ChainOut.caughtKeyError) →
      geocode_address address postal_code city municipality_code cache api today =
        GeoResult.ok ⟨Json.null, Json.null,
          pyInsert cache (geocodeKey address postal_code city)
            ⟨Json.null, Json.null, today⟩, true⟩ := by
    intro data hapi hwalk
    simp only [geocode_address]
    rw [hmiss, hapi]
    dsimp only
    rcases hwalk with hw | hw <;> rw [hw]
  rcases hfail with hapi | hapi | ⟨m, hapi, hcase⟩
  · simp only [geocode_address]
    rw [hmiss, hapi]
  · simp only [geocode_address]
    rw [hmiss, hapi]
  · refine hneg _ hapi ?_
    rcases hcase with hfind | ⟨v, hfind, ht⟩ | ⟨d, hfind⟩ | ⟨a, rest, hfind, hsub⟩
    · left
      unfold walkBody
      dsimp only
      rw [hfind]
    · left
      unfold walkBody
      dsimp only
      rw [hfind]
      dsimp only
      rw [ht]
      rfl
    · cases d with
      | nil =>
        left
        unfold walkBody
        dsimp only
        rw [hfind]
        rfl
      | cons q qs =>
        right
        unfold walkBody
        dsimp only
        rw [hfind]
        rfl
    · have htr : jTruthy (Json.arr (Json.obj a :: rest)) = true := rfl
      rcases hsub with hrp | ⟨r, hrp, hlatlon⟩
      · right
        unfold walkBody
        dsimp only
        rw [hfind]
        dsimp only
        rw [if_pos htr]
        rw [hrp]
      · rcases hlatlon with hla | ⟨la, hla, hlo⟩
        · right
          unfold walkBody
          dsimp only
          rw [hfind]
          dsimp only
          rw [if_pos htr]
          rw [hrp]
          dsimp only
          rw [hla]
        · right
          unfold walkBody
          dsimp only
          rw [hfind]
          dsimp only
          rw [if_pos htr]
          rw [hrp]
          dsimp only
          rw [hla]
          dsimp only
          rw [hlo]

/-- Witness for C5 amended: a concrete miss whose first candidate has a
representation point without a `lat` member - the `KeyError` is caught and a
negative entry is written. -/
theorem C5_geocode_failure_cached_witness :
    geocode_address "Gate 2" "1900" "By" none []
      (fun _ _ _ _ => ApiResponse.body (Json.obj
        [("adresser", Json.arr [Json.obj [("representasjonspunkt",
          Json.obj [("lon", Json.num 1)])]])])) "2026-03-03" =
      GeoResult.ok ⟨Json.null, Json.null,
        pyInsert [] (geocodeKey "Gate 2" "1900" "By")
          ⟨Json.null, Json.null, "2026-03-03"⟩, true⟩ :=
  C5_geocode_failure_cached "Gate 2" "1900" "By" none [] _ "2026-03-03" (by rfl)
    (Or.inr (Or.inr ⟨[("adresser", Json.arr [Json.obj [("representasjonspunkt",
        Json.obj [("lon", Json.num 1)])]])], rfl,
      Or.inr (Or.inr (Or.inr ⟨[("representasjonspunkt",
          Json.obj [("lon", Json.num 1)])], [], rfl,
        Or.inr ⟨[("lon", Json.num 1)], rfl, Or.inl rfl⟩⟩))⟩))

theorem pyFind?_mapVal {α β : Type} (f : α → β) (m : PyDict α) (k : String) :
    pyFind? (m.map (fun p => (p.1, f p.2))) k = (pyFind? m k).map f := by
  induction m with
  | nil => rfl
  | cons p m ih =>
    rw [List.map_cons]
    rw [pyFind?_cons, pyFind?_cons]
    dsimp only
    by_cases h : p.1 = k
    · rw [if_pos h, if_pos h]
      rfl
    · rw [if_neg h, if_neg h]
      exact ih

theorem pyInsert_mapVal {α β : Type} (f : α → β) (m : PyDict α) (k : String)
    (v : α) :
    pyInsert (m.map (fun p => (p.1, f p.2))) k (f v) =
      (pyInsert m k v).map (fun p => (p.1, f p.2)) := by
  unfold pyInsert
  have hany : ∀ l : PyDict α, (l.map (fun p => (p.1, f p.2))).any (fun p => p.1 == k) =
      l.any (fun p => p.1 == k) := by
    intro l
    induction l with
    | nil => rfl
    | cons p l ih => rw [List.map_cons, List.any_cons, List.any_cons, ih]
  rw [hany m]
  by_cases h : m.any (fun p => p.1 == k) = true
  · rw [if_pos h, if_pos h]
    rw [List.map_map, List.map_map]
    apply List.map_congr_left
    intro p hp
    by_cases hpk : p.1 = k
    · simp [Function.comp, hpk]
    · simp [Function.comp, hpk]
  · rw [if_neg h, if_neg h, List.map_append]
    rfl

/-- `geocodeView` computes exactly what `geocode_address` computes: on the
JSON realization of a classified cache and API, `geocode_address` completes
without an uncaught exception, with the outcome `geocodeView` returns. -/
theorem geocodeView_agrees (address postal_code city : String)
    (municipality_code : Option String) (cache : GeoCache) (api : ApiFun)
    (today : String) :
    geocode_address address postal_code city municipality_code (cacheJ cache)
      (fun a p c m => respOfView (api a p c m)) today =
    GeoResult.ok
      ⟨jOfOpt (geocodeView address postal_code city municipality_code
          cache api today).lat,
        jOfOpt (geocodeView address postal_code city municipality_code
          cache api today).lon,
        cacheJ (geocodeView address postal_code city municipality_code
          cache api today).cache,
        (geocodeView address postal_code city municipality_code
          cache api today).networkCalled⟩ := by
  cases hfind : pyFind? cache (geocodeKey address postal_code city) with
  | some e =>
    have hj : pyFind? (cacheJ cache) (geocodeKey address postal_code city) =
        some (entryJ e) := by
      rw [cacheJ, pyFind?_mapVal, hfind]
      rfl
    simp only [geocode_address, geocodeView]
    rw [hfind, hj]
    rfl
  | none =>
    have hj : pyFind? (cacheJ cache) (geocodeKey address postal_code city) =
        none := by
      rw [cacheJ, pyFind?_mapVal, hfind]
      rfl
    simp only [geocode_address, geocodeView]
    rw [hfind, hj]
    dsimp only
    cases hapi : api address postal_code city municipality_code with
    | networkError =>
      dsimp only [respOfView]
      rw [show (JsonGeoEntry.mk Json.null Json.null today) =
          entryJ ⟨none, none, today⟩ from rfl, cacheJ, pyInsert_mapVal]
      rfl
    | payload cs =>
      cases cs with
      | nil =>
        dsimp only [respOfView, List.map, walkBody]
        rw [show (JsonGeoEntry.mk Json.null Json.null today) =
            entryJ ⟨none, none, today⟩ from rfl, cacheJ, pyInsert_mapVal]
        rfl
      | cons c rest =>
        cases c with
        | none =>
          dsimp only [respOfView, List.map, candJ, walkBody]
          rw [show (JsonGeoEntry.mk Json.null Json.null today) =
              entryJ ⟨none, none, today⟩ from rfl, cacheJ, pyInsert_mapVal]
          rfl
        | some pr =>
          obtain ⟨a, b⟩ := pr
          have hw : walkBody (Json.obj [("adresser", Json.arr
              (Json.obj [("representasjonspunkt", Json.obj
                [("lat", Json.num a), ("lon", Json.num b)])] ::
                List.map candJ rest))]) =
              ChainOut.found (Json.num a) (Json.num b) := rfl
          dsimp only [respOfView, List.map, candJ]
          rw [hw]
          dsimp only
          rw [show (JsonGeoEntry.mk (Json.num a) (Json.num b) today) =
              entryJ ⟨some a, some b, today⟩ from rfl, cacheJ, pyInsert_mapVal]
          rfl

/-! ## C9: report map markers -/

/-- Counterexample to C9 as stated: in the enrich report a row carrying a
latitude but an empty longitude gets no marker (so a row is omitted without
lacking both coordinates), while a row lacking both coordinates (NaN cells,
which are truthy in Python) does get a marker, with NaN values - in the area
report likewise. -/
theorem C9_markers_counterexample :
    mapMarkersEnrich [⟨some "Firma", some "5", some "Gate 1", some "59.9", some ""⟩]
      = [] ∧
    mapMarkersEnrich [⟨some "Firma", some "5", some "Gate 1", none, none⟩]
      = [⟨none, none, "Firma", "5", "Gate 1"⟩] ∧
    mapMarkersReport [⟨some "Firma", 5, some "Gate 1", none, none⟩]
      = some [⟨none, none, "Firma", "5", "Gate 1"⟩] := by
  refine ⟨by decide, by decide, by decide⟩

/-- C9 amended: a marker is included exactly for the rows whose latitude and
longitude cells are both Python-truthy (non-empty; a NaN cell counts as
truthy) and both convert to floats; a row with one empty coordinate is
omitted even though it does not lack both, and rows whose coordinate cells are
NaN are included with NaN values.  In the area report the float conversions
are unguarded, so the same rule holds on inputs where they cannot raise. -/
theorem C9_markers_amended :
    (∀ rows : List EnrichRow,
      mapMarkersEnrich rows = rows.filterMap markerOfEnrichRow) ∧
    (∀ r : EnrichRow, (markerOfEnrichRow r).isSome =
      (pyTruthy r.latitude && pyTruthy r.longitude &&
        (floatOfCell r.latitude).isSome && (floatOfCell r.longitude).isSome)) ∧
    (∀ rows : List ReportRow, (∀ r ∈ rows, reportRowOk r = true) →
      mapMarkersReport rows = some (rows.filterMap markerOfReportRow)) ∧
    (∀ r : ReportRow, (markerOfReportRow r).isSome =
      (pyTruthy r.latitude && pyTruthy r.longitude &&
        (floatOfCell r.latitude).isSome && (floatOfCell r.longitude).isSome)) := by
  refine ⟨?_, ?_, ?_, ?_⟩
  · intro rows
    induction rows with
    | nil => rfl
    | cons r rest ih =>
      by_cases h : (pyTruthy r.latitude && pyTruthy r.longitude) = true
      · cases hla : floatOfCell r.latitude <;> cases hlo : floatOfCell r.longitude <;>
          simp [mapMarkersEnrich, markerOfEnrichRow, List.filterMap_cons, h, hla, hlo, ih]
      · simp [mapMarkersEnrich, markerOfEnrichRow, List.filterMap_cons, h, ih]
  · intro r
    by_cases h : (pyTruthy r.latitude && pyTruthy r.longitude) = true
    · cases hla : floatOfCell r.latitude <;> cases hlo : floatOfCell r.longitude <;>
        simp [markerOfEnrichRow, h, hla, hlo]
    · simp [markerOfEnrichRow, h]
  · intro rows
    induction rows with
    | nil => intro _; rfl
    | cons r rest ih =>
      intro hok
      have hr := hok r (by simp)
      have hrest : ∀ x ∈ rest, reportRowOk x = true := fun x hx => hok x (by simp [hx])
      by_cases h : (pyTruthy r.latitude && pyTruthy r.longitude) = true
      · have hsome : (floatOfCell r.latitude).isSome = true ∧
            (floatOfCell r.longitude).isSome = true := by
          simp [reportRowOk, h] at hr
          simpa [Bool.and_eq_true] using hr
        obtain ⟨la, hla⟩ := Option.isSome_iff_exists.mp hsome.1
        obtain ⟨lo, hlo⟩ := Option.isSome_iff_exists.mp hsome.2
        simp [mapMarkersReport, markerOfReportRow, List.filterMap_cons, h, hla, hlo,
          ih hrest]
      · simp [mapMarkersReport, markerOfReportRow, List.filterMap_cons, h, ih hrest]
  · intro r
    by_cases h : (pyTruthy r.latitude && pyTruthy r.longitude) = true
    · cases hla : floatOfCell r.latitude <;> cases hlo : floatOfCell r.longitude <;>
        simp [markerOfReportRow, h, hla, hlo]
    · simp [markerOfReportRow, h]

/-- Witness for C9 amended: the area-report characterization applied at a
concrete one-row frame whose coordinates convert. -/
theorem C9_markers_amended_witness :
    mapMarkersReport [⟨some "Firma", 3, some "Gate 1", some "59.5", some "10.5"⟩]
      = some (List.filterMap markerOfReportRow
          [⟨some "Firma", 3, some "Gate 1", some "59.5", some "10.5"⟩]) :=
  C9_markers_amended.2.2.1 _ (by decide)

/-! ## Lemmas: reducible rational arithmetic agrees with the library's -/

theorem qAdd_eq (a b : Rat) : qAdd a b = a + b := by
  rw [qAdd]
  conv_rhs => rw [← Rat.num_divInt_den a, ← Rat.num_divInt_den b]
  rw [Rat.divInt_add_divInt _ _
    (by exact_mod_cast a.den_nz) (by exact_mod_cast b.den_nz)]

theorem qSub_eq (a b : Rat) : qSub a b = a - b := by
  rw [qSub]
  conv_rhs => rw [← Rat.num_divInt_den a, ← Rat.num_divInt_den b]
  rw [Rat.divInt_sub_divInt _ _
    (by exact_mod_cast a.den_nz) (by exact_mod_cast b.den_nz)]

theorem divInt_5_100 : Rat.divInt 5 100 = 5 / 100 := by
  rw [Rat.divInt_eq_div]
  norm_num

/-! ## Lemmas: stages of the geographic filter -/

theorem mem_get_postal_codes {polygon : Polygon} {postal_df : List PostalRow}
    {p : String} (h : p ∈ get_postal_codes_in_polygon polygon postal_df) :
    ∃ pr ∈ postal_df, pr.POSTNR = p ∧ ∃ la lo : Rat,
      pr.LAT = some la ∧ pr.LON = some lo ∧
      qSub polygon.minLon (Rat.divInt 5 100) ≤ lo ∧
      lo ≤ qAdd polygon.maxLon (Rat.divInt 5 100) ∧
      qSub polygon.minLat (Rat.divInt 5 100) ≤ la ∧
      la ≤ qAdd polygon.maxLat (Rat.divInt 5 100) := by
  unfold get_postal_codes_in_polygon at h
  by_cases hemp : postal_df.isEmpty
  · rw [if_pos hemp] at h
    simp at h
  · rw [if_neg hemp] at h
    obtain ⟨pr, hpr, hp⟩ := List.mem_map.mp h
    obtain ⟨hpr2, hsome⟩ := List.mem_filter.mp hpr
    obtain ⟨hprmem, hbbox⟩ := List.mem_filter.mp hpr2
    refine ⟨pr, hprmem, hp, ?_⟩
    simp only [Bool.and_eq_true] at hbbox hsome
    obtain ⟨⟨⟨h1, h2⟩, h3⟩, h4⟩ := hbbox
    obtain ⟨hlat, hlon⟩ := hsome
    obtain ⟨la, hla⟩ := Option.isSome_iff_exists.mp hlat
    obtain ⟨lo, hlo⟩ := Option.isSome_iff_exists.mp hlon
    rw [hla] at h3 h4
    rw [hlo] at h1 h2
    exact ⟨la, lo, hla, hlo, by simpa [cellGe] using h1, by simpa [cellLe] using h2,
      by simpa [cellGe] using h3, by simpa [cellLe] using h4⟩

theorem mem_load_company_data {enheter underenheter : List BaseRow}
    {postal_codes : List String} {c : CompanyRow}
    (h : c ∈ load_company_data enheter underenheter postal_codes) :
    (c.source = "hovedenhet" ∨ c.source = "underenhet") ∧
    (postal_codes.isEmpty = false →
      ∃ p, c.base.postnummer = some p ∧ postal_codes.contains p = true) := by
  unfold load_company_data at h
  by_cases hemp : postal_codes.isEmpty
  · rw [if_pos hemp] at h
    constructor
    · rcases List.mem_append.mp h with h2 | h2 <;>
        obtain ⟨r, hr, hrc⟩ := List.mem_map.mp h2 <;> rw [← hrc] <;> simp
    · intro hfalse
      rw [hemp] at hfalse
      exact absurd hfalse (by simp)
  · rw [if_neg hemp] at h
    obtain ⟨hmem, hpred⟩ := List.mem_filter.mp h
    constructor
    · rcases List.mem_append.mp hmem with h2 | h2 <;>
        obtain ⟨r, hr, hrc⟩ := List.mem_map.mp h2 <;> rw [← hrc] <;> simp
    · intro _
      cases hpn : c.base.postnummer with
      | none => rw [hpn] at hpred; simp at hpred
      | some p =>
        rw [hpn] at hpred
        exact ⟨p, rfl, hpred⟩

theorem mem_employeeFilter {df : List CompanyRow} {minEmployees maxEmployees : Int}
    {c : CompanyRow} {n : Int}
    (h : (c, n) ∈ employeeFilter df minEmployees maxEmployees) :
    c ∈ df ∧ pyToNumericInt c.base.antallAnsatte = some n ∧
      minEmployees ≤ n ∧ n ≤ maxEmployees := by
  unfold employeeFilter at h
  obtain ⟨row, hrow, hsome⟩ := List.mem_filterMap.mp h
  cases hparse : pyToNumericInt row.base.antallAnsatte with
  | none => rw [hparse] at hsome; simp at hsome
  | some m =>
    rw [hparse] at hsome
    dsimp only at hsome
    by_cases hb : minEmployees ≤ m ∧ m ≤ maxEmployees
    · rw [if_pos hb] at hsome
      simp only [Option.some_inj, Prod.mk.injEq] at hsome
      obtain ⟨hc, hn⟩ := hsome
      subst hc
      subst hn
      exact ⟨hrow, hparse, hb.1, hb.2⟩
    · rw [if_neg hb] at hsome
      simp at hsome

theorem allParsed_employeeFilter {df : List CompanyRow}
    {minEmployees maxEmployees : Int} {c : CompanyRow} {n : Int}
    (h : (c, n) ∈ employeeFilter df minEmployees maxEmployees) :
    pyToNumericInt c.base.antallAnsatte = some n :=
  (mem_employeeFilter h).2.1

theorem mem_addressRows {df : List (CompanyRow × Int)} {p : CompanyRow × Int}
    (h : p ∈ addressRows df) :
    p ∈ df ∧ ∃ a, p.1.base.adresse = some a ∧ a ≠ "" := by
  unfold addressRows at h
  obtain ⟨hmem, hpred⟩ := List.mem_filter.mp h
  refine ⟨hmem, ?_⟩
  cases hads : p.1.base.adresse with
  | none => rw [hads] at hpred; simp at hpred
  | some a =>
    rw [hads] at hpred
    exact ⟨a, rfl, by simpa using hpred⟩

theorem mem_geocodeFold {polygon : Polygon} {api : ApiFun} {today : String} :
    ∀ (rows : List (CompanyRow × Int)) (cache : GeoCache) {res : ResultRow},
      res ∈ (geocodeFold polygon api today rows cache).1 →
      ∃ p ∈ rows, ∃ lat lon : Rat,
        polygon.containsPt lon lat = true ∧ res = mkResult p.1 p.2 lat lon := by
  intro rows
  induction rows with
  | nil =>
    intro cache res h
    simp [geocodeFold] at h
  | cons p rest ih =>
    intro cache res h
    simp only [geocodeFold] at h
    cases hlat : (geocodeView (fmtCell p.1.base.adresse) (fmtCell p.1.base.postnummer)
        (fmtCell p.1.base.poststed) p.1.base.kommunenummer cache api today).lat with
    | none =>
      rw [hlat] at h
      obtain ⟨q, hq, hrest⟩ := ih _ h
      exact ⟨q, List.mem_cons_of_mem _ hq, hrest⟩
    | some lat =>
      rw [hlat] at h
      cases hlon : (geocodeView (fmtCell p.1.base.adresse) (fmtCell p.1.base.postnummer)
          (fmtCell p.1.base.poststed) p.1.base.kommunenummer cache api today).lon with
      | none =>
        rw [hlon] at h
        obtain ⟨q, hq, hrest⟩ := ih _ h
        exact ⟨q, List.mem_cons_of_mem _ hq, hrest⟩
      | some lon =>
        rw [hlon] at h
        dsimp only at h
        by_cases hc : polygon.containsPt lon lat = true
        · rw [if_pos hc] at h
          rcases List.mem_cons.mp h with heq | hmem
          · exact ⟨p, List.mem_cons_self _ _, lat, lon, hc, heq⟩
          · obtain ⟨q, hq, hrest⟩ := ih _ hmem
            exact ⟨q, List.mem_cons_of_mem _ hq, hrest⟩
        · rw [if_neg hc] at h
          obtain ⟨q, hq, hrest⟩ := ih _ h
          exact ⟨q, List.mem_cons_of_mem _ hq, hrest⟩

/-! ## Lemmas: sorting and deduplication -/

theorem insertSorted_perm {α : Type} (le : α → α → Bool) (x : α) :
    ∀ l : List α, (insertSorted le x l).Perm (x :: l) := by
  intro l
  induction l with
  | nil => simp [insertSorted]
  | cons y ys ih =>
    rw [insertSorted]
    by_cases hc : (le y x && !(le x y)) = true
    · rw [if_pos hc]
      exact (ih.cons y).trans (List.Perm.swap x y ys)
    · rw [if_neg hc]

theorem sortBy_perm {α : Type} (le : α → α → Bool) :
    ∀ l : List α, (sortBy le l).Perm l := by
  intro l
  induction l with
  | nil => simp [sortBy]
  | cons x xs ih =>
    rw [sortBy]
    exact (insertSorted_perm le x (sortBy le xs)).trans (ih.cons x)

theorem mem_sortBy {α : Type} {le : α → α → Bool} {a : α} {l : List α} :
    a ∈ sortBy le l ↔ a ∈ l :=
  (sortBy_perm le l).mem_iff

theorem insertSorted_pairwise {α : Type} {le : α → α → Bool}
    (htrans : ∀ a b c, le a b = true → le b c = true → le a c = true)
    (htotal : ∀ a b, le a b = true ∨ le b a = true) (x : α) :
    ∀ l : List α, l.Pairwise (fun a b => le a b = true) →
      (insertSorted le x l).Pairwise (fun a b => le a b = true) := by
  intro l
  induction l with
  | nil => intro _; simp [insertSorted]
  | cons y ys ih =>
    intro h
    obtain ⟨hy, hys⟩ := List.pairwise_cons.mp h
    rw [insertSorted]
    by_cases hc : (le y x && !(le x y)) = true
    · rw [if_pos hc]
      refine List.pairwise_cons.mpr ⟨?_, ih hys⟩
      intro z hz
      rcases List.mem_cons.mp ((insertSorted_perm le x ys).mem_iff.mp hz) with hzx | hzys
      · rw [hzx]
        exact (Bool.and_eq_true .. ▸ hc).1
      · exact hy z hzys
    · rw [if_neg hc]
      have hxy : le x y = true := by
        rcases htotal x y with h1 | h1
        · exact h1
        · by_cases h2 : le x y = true
          · exact h2
          · exact absurd (by simp [h1, h2] : (le y x && !(le x y)) = true) hc
      refine List.pairwise_cons.mpr ⟨?_, h⟩
      intro z hz
      rcases List.mem_cons.mp hz with hzy | hzys
      · rw [hzy]; exact hxy
      · exact htrans x y z hxy (hy z hzys)

theorem sortBy_pairwise {α : Type} {le : α → α → Bool}
    (htrans : ∀ a b c, le a b = true → le b c = true → le a c = true)
    (htotal : ∀ a b, le a b = true ∨ le b a = true) :
    ∀ l : List α, (sortBy le l).Pairwise (fun a b => le a b = true) := by
  intro l
  induction l with
  | nil => simp [sortBy]
  | cons x xs ih =>
    rw [sortBy]
    exact insertSorted_pairwise htrans htotal x _ ih

theorem mem_of_mem_dropDupsByAux {α β : Type} [DecidableEq β] (f : α → β) :
    ∀ (l : List α) (seen : List β) {x : α}, x ∈ dropDupsByAux f seen l → x ∈ l := by
  intro l
  induction l with
  | nil => intro seen x h; simp [dropDupsByAux] at h
  | cons a as ih =>
    intro seen x h
    rw [dropDupsByAux] at h
    by_cases hc : seen.contains (f a) = true
    · rw [if_pos hc] at h
      exact List.mem_cons_of_mem _ (ih _ h)
    · rw [if_neg hc] at h
      rcases List.mem_cons.mp h with hxa | hmem
      · exact hxa ▸ List.mem_cons_self _ _
      · exact List.mem_cons_of_mem _ (ih _ hmem)

theorem key_not_seen_dropDupsByAux {α β : Type} [DecidableEq β] (f : α → β) :
    ∀ (l : List α) (seen : List β) {x : α},
      x ∈ dropDupsByAux f seen l → f x ∉ seen := by
  intro l
  induction l with
  | nil => intro seen x h; simp [dropDupsByAux] at h
  | cons a as ih =>
    intro seen x h
    rw [dropDupsByAux] at h
    by_cases hc : seen.contains (f a) = true
    · rw [if_pos hc] at h
      exact ih _ h
    · rw [if_neg hc] at h
      rcases List.mem_cons.mp h with hxa | hmem
      · rw [hxa]
        intro hmem2
        exact hc (List.elem_eq_true_of_mem hmem2)
      · intro hmem2
        exact ih _ hmem (List.mem_cons_of_mem _ hmem2)

theorem pairwise_dropDupsByAux {α β : Type} [DecidableEq β] (f : α → β) :
    ∀ (l : List α) (seen : List β),
      (dropDupsByAux f seen l).Pairwise (fun a b => f a ≠ f b) := by
  intro l
  induction l with
  | nil => intro seen; simp [dropDupsByAux]
  | cons a as ih =>
    intro seen
    rw [dropDupsByAux]
    by_cases hc : seen.contains (f a) = true
    · rw [if_pos hc]
      exact ih _
    · rw [if_neg hc]
      refine List.pairwise_cons.mpr ⟨?_, ih _⟩
      intro y hy
      have := key_not_seen_dropDupsByAux f as (f a :: seen) hy
      intro heq
      exact this (heq ▸ List.mem_cons_self _ _)

theorem exists_dropDupsByAux {α β : Type} [DecidableEq β] (f : α → β) :
    ∀ (l : List α) (seen : List β) {y : α}, y ∈ l → f y ∉ seen →
      ∃ x ∈ dropDupsByAux f seen l, f x = f y := by
  intro l
  induction l with
  | nil => intro seen y h _; simp at h
  | cons a as ih =>
    intro seen y hy hns
    rw [dropDupsByAux]
    rcases List.mem_cons.mp hy with hya | hmem
    · subst hya
      have hc : seen.contains (f y) ≠ true := fun h =>
        hns (List.mem_of_elem_eq_true h)
      rw [if_neg hc]
      exact ⟨y, List.mem_cons_self _ _, rfl⟩
    · by_cases hc : seen.contains (f a) = true
      · rw [if_pos hc]
        exact ih _ hmem hns
      · rw [if_neg hc]
        by_cases hfy : f y = f a
        · exact ⟨a, List.mem_cons_self _ _, hfy.symm⟩
        · have hns2 : f y ∉ f a :: seen := by
            intro h2
            rcases List.mem_cons.mp h2 with h3 | h3
            · exact hfy h3
            · exact hns h3
          obtain ⟨x, hx, hfx⟩ := ih _ hmem hns2
          exact ⟨x, List.mem_cons_of_mem _ hx, hfx⟩

theorem min_dropDupsByAux {α β : Type} [DecidableEq β] (f : α → β)
    {R : α → α → Prop} (hrefl : ∀ a, R a a) :
    ∀ (l : List α) (seen : List β), l.Pairwise R →
      ∀ x ∈ dropDupsByAux f seen l, ∀ y ∈ l, f y = f x → R x y := by
  intro l
  induction l with
  | nil => intro seen _ x hx; simp [dropDupsByAux] at hx
  | cons a as ih =>
    intro seen hpw x hx y hy hfy
    obtain ⟨ha, has⟩ := List.pairwise_cons.mp hpw
    rw [dropDupsByAux] at hx
    by_cases hc : seen.contains (f a) = true
    · rw [if_pos hc] at hx
      rcases List.mem_cons.mp hy with hya | hmem
      · exfalso
        have hnot := key_not_seen_dropDupsByAux f as seen hx
        have : f a ∈ seen := List.mem_of_elem_eq_true hc
        rw [← hya, hfy] at this
        exact hnot this
      · exact ih _ has x hx y hmem hfy
    · rw [if_neg hc] at hx
      rcases List.mem_cons.mp hx with hxa | hxmem
      · subst hxa
        rcases List.mem_cons.mp hy with hya | hmem
        · rw [hya]; exact hrefl x
        · exact ha y hmem
      · rcases List.mem_cons.mp hy with hya | hmem
        · exfalso
          have hnot := key_not_seen_dropDupsByAux f as (f a :: seen) hxmem
          rw [← hya, hfy] at hnot
          exact hnot (List.mem_cons_self _ _)
        · exact ih _ has x hxmem y hmem hfy

/-! ## Lemmas: the code-point string order -/

theorem charListLe_refl : ∀ l : List Char, charListLe l l = true := by
  intro l
  induction l with
  | nil => rfl
  | cons c cs ih =>
    rw [charListLe]
    simp [lt_irrefl, ih]

theorem charListLe_total : ∀ a b : List Char,
    charListLe a b = true ∨ charListLe b a = true := by
  intro a
  induction a with
  | nil => intro b; left; cases b <;> rfl
  | cons x xs ih =>
    intro b
    cases b with
    | nil => right; rfl
    | cons y ys =>
      rw [charListLe, charListLe]
      by_cases hxy : x < y
      · left; simp [hxy]
      · by_cases hyx : y < x
        · right; simp [hyx]
        · simpa [hxy, hyx] using ih ys

theorem charListLe_trans : ∀ a b c : List Char,
    charListLe a b = true → charListLe b c = true → charListLe a c = true := by
  intro a
  induction a with
  | nil => intro b c _ _; rfl
  | cons x xs ih =>
    intro b c h1 h2
    cases b with
    | nil => rw [charListLe] at h1; exact absurd h1 (by simp)
    | cons y ys =>
      cases c with
      | nil => rw [charListLe] at h2; exact absurd h2 (by simp)
      | cons z zs =>
        rw [charListLe] at h1 h2 ⊢
        by_cases hyx : y < x
        · simp [asymm hyx, hyx] at h1
        · by_cases hxy : x < y
          · by_cases hyz : y < z
            · simp [lt_trans hxy hyz]
            · by_cases hzy : z < y
              · simp [asymm hzy, hzy] at h2
              · have hyzeq : y = z := le_antisymm (not_lt.mp hzy) (not_lt.mp hyz)
                subst hyzeq
                simp [hxy]
          · have hxyeq : x = y := le_antisymm (not_lt.mp hyx) (not_lt.mp hxy)
            subst hxyeq
            simp [lt_irrefl] at h1
            by_cases hxz : x < z
            · simp [hxz]
            · by_cases hzx : z < x
              · simp [asymm hzx, hzx] at h2
              · have hxzeq : x = z := le_antisymm (not_lt.mp hzx) (not_lt.mp hxz)
                subst hxzeq
                simp [lt_irrefl] at h2 ⊢
                exact ih ys zs h1 h2

theorem pyStrLe_refl (s : String) : pyStrLe s s = true :=
  charListLe_refl s.data

theorem pyStrLe_trans (a b c : String) (h1 : pyStrLe a b = true)
    (h2 : pyStrLe b c = true) : pyStrLe a c = true :=
  charListLe_trans a.data b.data c.data h1 h2

theorem pyStrLe_total (a b : String) : pyStrLe a b = true ∨ pyStrLe b a = true :=
  charListLe_total a.data b.data

/-- Every geocode-loop result row carries the source tag of a registry row:
"hovedenhet" or "underenhet". -/
theorem source_mem_filterResults {polygon : Polygon} {postal_df : List PostalRow}
    {enheter underenheter : List BaseRow} {minEmployees maxEmployees : Int}
    {cache : GeoCache} {api : ApiFun} {today : String} {res : ResultRow}
    (h : res ∈ filterResults polygon postal_df enheter underenheter
      minEmployees maxEmployees cache api today) :
    res.source = "hovedenhet" ∨ res.source = "underenhet" := by
  obtain ⟨p, hp, lat, lon, _, heq⟩ := mem_geocodeFold _ _ h
  obtain ⟨hp2, -⟩ := mem_addressRows hp
  obtain ⟨hc, -⟩ := mem_employeeFilter hp2
  have hsrc := (mem_load_company_data hc).1
  rw [heq]
  exact hsrc

/-! ## C6, C10: what the geographic filter emits -/

/-- C6: every row the filter writes out comes from a registry row with a
non-empty, non-NaN address whose postal code has a centroid inside the
polygon's bounding box expanded by the 0.05-degree margin, and its geocoded
point passes the exact containment test against the original polygon; a
negative geocode result never reaches the output (an emitted row always has
concrete coordinates, the ones tested). -/
theorem C6_filter_emits_only_inside (polygon : Polygon)
    (postal_df : List PostalRow) (enheter underenheter : List BaseRow)
    (minEmployees maxEmployees : Int) (cache : GeoCache) (api : ApiFun)
    (today : String) (res : ResultRow)
    (h : res ∈ runFilter polygon postal_df enheter underenheter
      minEmployees maxEmployees cache api today) :
    polygon.containsPt res.longitude res.latitude = true ∧
    ∃ c ∈ load_company_data enheter underenheter
        (get_postal_codes_in_polygon polygon postal_df),
      res.organisasjonsnummer = c.base.organisasjonsnummer ∧
      res.source = c.source ∧
      (∃ a, c.base.adresse = some a ∧ a ≠ "") ∧
      ∃ p, c.base.postnummer = some p ∧
        ∃ pr ∈ postal_df, pr.POSTNR = p ∧
          ∃ la lo : Rat, pr.LAT = some la ∧ pr.LON = some lo ∧
            polygon.minLon - 5 / 100 ≤ lo ∧ lo ≤ polygon.maxLon + 5 / 100 ∧
            polygon.minLat - 5 / 100 ≤ la ∧ la ≤ polygon.maxLat + 5 / 100 := by
  unfold runFilter at h
  by_cases hpc : (get_postal_codes_in_polygon polygon postal_df).isEmpty
  · rw [if_pos hpc] at h
    simp at h
  · rw [if_neg hpc] at h
    by_cases hdf : (employeeFilter
        (load_company_data enheter underenheter
          (get_postal_codes_in_polygon polygon postal_df))
        minEmployees maxEmployees).isEmpty
    · rw [if_pos hdf] at h
      simp at h
    · rw [if_neg hdf] at h
      have hres : res ∈ filterResults polygon postal_df enheter underenheter
          minEmployees maxEmployees cache api today :=
        mem_sortBy.mp (mem_of_mem_dropDupsByAux _ _ _ h)
      obtain ⟨p, hp, lat, lon, hcont, heq⟩ := mem_geocodeFold _ _ hres
      obtain ⟨hp2, haddr⟩ := mem_addressRows hp
      obtain ⟨hc, -, -, -⟩ := mem_employeeFilter hp2
      have hload := mem_load_company_data hc
      have hpcfalse : (get_postal_codes_in_polygon polygon postal_df).isEmpty = false :=
        Bool.eq_false_iff.mpr hpc
      obtain ⟨pn, hpn, hcontains⟩ := hload.2 hpcfalse
      have hpnmem : pn ∈ get_postal_codes_in_polygon polygon postal_df :=
        List.mem_of_elem_eq_true hcontains
      obtain ⟨pr, hpr, hprn, la, lo, hla, hlo, h1, h2, h3, h4⟩ :=
        mem_get_postal_codes hpnmem
      rw [qSub_eq, divInt_5_100] at h1 h3
      rw [qAdd_eq, divInt_5_100] at h2 h4
      subst heq
      refine ⟨hcont, p.1, hc, rfl, rfl, haddr, pn, hpn, pr, hpr, hprn,
        la, lo, hla, hlo, h1, h2, h3, h4⟩

/-- Witness for C6: a concrete run with one company inside the polygon; the
emitted row's geocoded point passes the exact containment test. -/
theorem C6_filter_emits_only_inside_witness :
    (Polygon.mk 10 59 11 60 (fun lo la =>
      decide ((10 : Rat) ≤ lo ∧ lo ≤ 11 ∧ (59 : Rat) ≤ la ∧ la ≤ 60))).containsPt
      (ResultRow.mk (some "111") (some "Inside AS") 10 "Gate 1, 2000 By"
        (Rat.divInt 595 10) (Rat.divInt 105 10) (some "62.0") (some "IT")
        "hovedenhet").longitude
      (ResultRow.mk (some "111") (some "Inside AS") 10 "Gate 1, 2000 By"
        (Rat.divInt 595 10) (Rat.divInt 105 10) (some "62.0") (some "IT")
        "hovedenhet").latitude = true :=
  (C6_filter_emits_only_inside
    (Polygon.mk 10 59 11 60 (fun lo la =>
      decide ((10 : Rat) ≤ lo ∧ lo ≤ 11 ∧ (59 : Rat) ≤ la ∧ la ≤ 60)))
    [PostalRow.mk "2000" (some (Rat.divInt 595 10)) (some (Rat.divInt 105 10))]
    [BaseRow.mk (some "111") (some "Inside AS") (some "10") (some "Gate 1")
      (some "2000") (some "By") none (some "62.0") (some "IT")]
    [] 0 99999 []
    (fun _ _ _ _ => ApiView.payload [some (Rat.divInt 595 10, Rat.divInt 105 10)])
    "D"
    (ResultRow.mk (some "111") (some "Inside AS") 10 "Gate 1, 2000 By"
      (Rat.divInt 595 10) (Rat.divInt 105 10) (some "62.0") (some "IT")
      "hovedenhet")
    (by decide)).1

/-- C10: every row the filter emits carries the integer employee count
successfully parsed from its registry row within the requested bounds, and
every row of the employee-filtered frame parsed successfully - so a registry
row whose `antallAnsatte` is missing or non-numeric never survives filtering,
under the default bounds 0..99999 as under any other. -/
theorem C10_employee_count (polygon : Polygon) (postal_df : List PostalRow)
    (enheter underenheter : List BaseRow) (minEmployees maxEmployees : Int)
    (cache : GeoCache) (api : ApiFun) (today : String) :
    (∀ res ∈ runFilter polygon postal_df enheter underenheter
        minEmployees maxEmployees cache api today,
      ∃ c n, (c, n) ∈ employeeFilter
          (load_company_data enheter underenheter
            (get_postal_codes_in_polygon polygon postal_df))
          minEmployees maxEmployees ∧
        pyToNumericInt c.base.antallAnsatte = some n ∧
        minEmployees ≤ n ∧ n ≤ maxEmployees ∧
        res.antallAnsatte = n ∧
        res.organisasjonsnummer = c.base.organisasjonsnummer) ∧
    (∀ p ∈ employeeFilter
        (load_company_data enheter underenheter
          (get_postal_codes_in_polygon polygon postal_df))
        minEmployees maxEmployees,
      pyToNumericInt p.1.base.antallAnsatte = some p.2) := by
  constructor
  · intro res h
    unfold runFilter at h
    by_cases hpc : (get_postal_codes_in_polygon polygon postal_df).isEmpty
    · rw [if_pos hpc] at h
      simp at h
    · rw [if_neg hpc] at h
      by_cases hdf : (employeeFilter
          (load_company_data enheter underenheter
            (get_postal_codes_in_polygon polygon postal_df))
          minEmployees maxEmployees).isEmpty
      · rw [if_pos hdf] at h
        simp at h
      · rw [if_neg hdf] at h
        have hres : res ∈ filterResults polygon postal_df enheter underenheter
            minEmployees maxEmployees cache api today :=
          mem_sortBy.mp (mem_of_mem_dropDupsByAux _ _ _ h)
        obtain ⟨p, hp, lat, lon, hcont, heq⟩ := mem_geocodeFold _ _ hres
        obtain ⟨hp2, -⟩ := mem_addressRows hp
        obtain ⟨-, hparse, hlo2, hhi2⟩ := mem_employeeFilter hp2
        subst heq
        exact ⟨p.1, p.2, hp2, hparse, hlo2, hhi2, rfl, rfl⟩
  · intro p hp
    exact (mem_employeeFilter hp).2.1

/-- Witness for C10: in the concrete run of one company with `antallAnsatte`
"10" under the default bounds, the emitted row carries the parsed count. -/
theorem C10_employee_count_witness :
    ∃ c n, (c, n) ∈ employeeFilter
        (load_company_data
          [BaseRow.mk (some "111") (some "Inside AS") (some "10") (some "Gate 1")
            (some "2000") (some "By") none (some "62.0") (some "IT")]
          []
          (get_postal_codes_in_polygon
            (Polygon.mk 10 59 11 60 (fun lo la =>
              decide ((10 : Rat) ≤ lo ∧ lo ≤ 11 ∧ (59 : Rat) ≤ la ∧ la ≤ 60)))
            [PostalRow.mk "2000" (some (Rat.divInt 595 10)) (some (Rat.divInt 105 10))]))
        0 99999 ∧
      pyToNumericInt c.base.antallAnsatte = some n ∧
      (0 : Int) ≤ n ∧ n ≤ 99999 ∧
      (ResultRow.mk (some "111") (some "Inside AS") 10 "Gate 1, 2000 By"
        (Rat.divInt 595 10) (Rat.divInt 105 10) (some "62.0") (some "IT")
        "hovedenhet").antallAnsatte = n ∧
      (ResultRow.mk (some "111") (some "Inside AS") 10 "Gate 1, 2000 By"
        (Rat.divInt 595 10) (Rat.divInt 105 10) (some "62.0") (some "IT")
        "hovedenhet").organisasjonsnummer = c.base.organisasjonsnummer :=
  (C10_employee_count
    (Polygon.mk 10 59 11 60 (fun lo la =>
      decide ((10 : Rat) ≤ lo ∧ lo ≤ 11 ∧ (59 : Rat) ≤ la ∧ la ≤ 60)))
    [PostalRow.mk "2000" (some (Rat.divInt 595 10)) (some (Rat.divInt 105 10))]
    [BaseRow.mk (some "111") (some "Inside AS") (some "10") (some "Gate 1")
      (some "2000") (some "By") none (some "62.0") (some "IT")]
    [] 0 99999 []
    (fun _ _ _ _ => ApiView.payload [some (Rat.divInt 595 10, Rat.divInt 105 10)])
    "D").1
    (ResultRow.mk (some "111") (some "Inside AS") 10 "Gate 1, 2000 By"
      (Rat.divInt 595 10) (Rat.divInt 105 10) (some "62.0") (some "IT")
      "hovedenhet")
    (by decide)

/-! ## C7: deduplication by formatted address -/

/-- C7: among the geocode-loop results of a filter run, deduplication keeps
exactly one row per final formatted address (one survivor per address that
occurs, and no two kept rows share an address), every kept row is one of the
results, the kept row is a source-minimal one - the first after sorting by
unit type ascending - and in particular a primary business unit (hovedenhet)
is kept in preference to a sub-unit (underenhet). -/
theorem C7_dedup_prefers_hovedenhet (polygon : Polygon)
    (postal_df : List PostalRow) (enheter underenheter : List BaseRow)
    (minEmployees maxEmployees : Int) (cache : GeoCache) (api : ApiFun)
    (today : String) :
    (dedupResults (filterResults polygon postal_df enheter underenheter
        minEmployees maxEmployees cache api today)).Pairwise
      (fun a b => a.adresse ≠ b.adresse) ∧
    (∀ r ∈ filterResults polygon postal_df enheter underenheter
        minEmployees maxEmployees cache api today,
      ∃ r2 ∈ dedupResults (filterResults polygon postal_df enheter underenheter
        minEmployees maxEmployees cache api today), r2.adresse = r.adresse) ∧
    (∀ r2 ∈ dedupResults (filterResults polygon postal_df enheter underenheter
        minEmployees maxEmployees cache api today),
      r2 ∈ filterResults polygon postal_df enheter underenheter
        minEmployees maxEmployees cache api today) ∧
    (∀ r2 ∈ dedupResults (filterResults polygon postal_df enheter underenheter
        minEmployees maxEmployees cache api today),
      ∀ r ∈ filterResults polygon postal_df enheter underenheter
        minEmployees maxEmployees cache api today,
      r.adresse = r2.adresse → pyStrLe r2.source r.source = true) ∧
    (∀ r2 ∈ dedupResults (filterResults polygon postal_df enheter underenheter
        minEmployees maxEmployees cache api today),
      (∃ r ∈ filterResults polygon postal_df enheter underenheter
        minEmployees maxEmployees cache api today,
        r.adresse = r2.adresse ∧ r.source = "hovedenhet") →
      r2.source = "hovedenhet") := by
  have htrans : ∀ a b c : ResultRow, pyStrLe a.source b.source = true →
      pyStrLe b.source c.source = true → pyStrLe a.source c.source = true :=
    fun a b c h1 h2 => pyStrLe_trans _ _ _ h1 h2
  have htotal : ∀ a b : ResultRow, pyStrLe a.source b.source = true ∨
      pyStrLe b.source a.source = true :=
    fun a b => pyStrLe_total _ _
  have hmin := min_dropDupsByAux (fun r : ResultRow => r.adresse)
    (R := fun a b => pyStrLe a.source b.source = true)
    (fun a => pyStrLe_refl _)
    (sortBy (fun a b => pyStrLe a.source b.source)
      (filterResults polygon postal_df enheter underenheter
        minEmployees maxEmployees cache api today))
    [] (sortBy_pairwise htrans htotal _)
  refine ⟨pairwise_dropDupsByAux _ _ _, ?_, ?_, ?_, ?_⟩
  · intro r hr
    obtain ⟨x, hx, hfx⟩ := exists_dropDupsByAux (fun r : ResultRow => r.adresse)
      _ [] (mem_sortBy.mpr hr) (by simp)
    exact ⟨x, hx, hfx⟩
  · intro r2 h2
    exact mem_sortBy.mp (mem_of_mem_dropDupsByAux _ _ _ h2)
  · intro r2 h2 r hr heq
    exact hmin r2 h2 r (mem_sortBy.mpr hr) heq
  · intro r2 h2 ⟨r, hr, haddr, hsrc⟩
    have hle : pyStrLe r2.source r.source = true :=
      hmin r2 h2 r (mem_sortBy.mpr hr) haddr
    rw [hsrc] at hle
    have hr2res : r2 ∈ filterResults polygon postal_df enheter underenheter
        minEmployees maxEmployees cache api today :=
      mem_sortBy.mp (mem_of_mem_dropDupsByAux _ _ _ h2)
    rcases source_mem_filterResults hr2res with h | h
    · exact h
    · rw [h] at hle
      exact absurd hle (by decide)

/-- Witness for C7: a concrete run where a primary unit and a sub-unit
geocode to the same formatted address - the kept row is the hovedenhet. -/
theorem C7_dedup_prefers_hovedenhet_witness :
    (ResultRow.mk (some "111") (some "Inside AS") 10 "Gate 1, 2000 By"
      (Rat.divInt 595 10) (Rat.divInt 105 10) (some "62.0") (some "IT")
      "hovedenhet").source = "hovedenhet" :=
  (C7_dedup_prefers_hovedenhet
    (Polygon.mk 10 59 11 60 (fun lo la =>
      decide ((10 : Rat) ≤ lo ∧ lo ≤ 11 ∧ (59 : Rat) ≤ la ∧ la ≤ 60)))
    [PostalRow.mk "2000" (some (Rat.divInt 595 10)) (some (Rat.divInt 105 10))]
    [BaseRow.mk (some "111") (some "Inside AS") (some "10") (some "Gate 1")
      (some "2000") (some "By") none (some "62.0") (some "IT")]
    [BaseRow.mk (some "112") (some "Branch") (some "7") (some "Gate 1")
      (some "2000") (some "By") none (some "62.0") (some "IT")]
    0 99999 []
    (fun _ _ _ _ => ApiView.payload [some (Rat.divInt 595 10, Rat.divInt 105 10)])
    "D").2.2.2.2
    (ResultRow.mk (some "111") (some "Inside AS") 10 "Gate 1, 2000 By"
      (Rat.divInt 595 10) (Rat.divInt 105 10) (some "62.0") (some "IT")
      "hovedenhet")
    (by decide)
    ⟨ResultRow.mk (some "111") (some "Inside AS") 10 "Gate 1, 2000 By"
      (Rat.divInt 595 10) (Rat.divInt 105 10) (some "62.0") (some "IT")
      "hovedenhet", by decide, rfl, rfl⟩

/-! ## Lemmas: sheet rows as dicts -/

theorem foldl_pyInsert_append {α : Type} :
    ∀ (ps : List (String × α)) (m : PyDict α),
      (ps.map Prod.fst).Nodup →
      (∀ p ∈ ps, m.any (fun q => q.1 == p.1) = false) →
      ps.foldl (fun m p => pyInsert m p.1 p.2) m = m ++ ps := by
  intro ps
  induction ps with
  | nil => intro m _ _; simp
  | cons p ps ih =>
    intro m hnd hdis
    rw [List.foldl_cons]
    have hany : m.any (fun q => q.1 == p.1) = false :=
      hdis p (List.mem_cons_self _ _)
    have hnd2 : p.1 ∉ ps.map Prod.fst ∧ (ps.map Prod.fst).Nodup := by
      rw [List.map_cons] at hnd
      exact List.nodup_cons.mp hnd
    have hins : pyInsert m p.1 p.2 = m ++ [p] := by
      rw [pyInsert, if_neg (by simp [hany])]
    rw [hins, ih (m ++ [p]) hnd2.2]
    · simp
    · intro q hq
      rw [List.any_append]
      simp only [Bool.or_eq_false_iff]
      refine ⟨hdis q (List.mem_cons_of_mem _ hq), ?_⟩
      have hne : p.1 ≠ q.1 := by
        intro heq
        exact hnd2.1 (heq ▸ List.mem_map_of_mem Prod.fst hq)
      simp [List.any_cons, hne]

theorem pyDictOf_eq_self {α : Type} (ps : List (String × α))
    (h : (ps.map Prod.fst).Nodup) : pyDictOf ps = ps := by
  unfold pyDictOf
  simpa using foldl_pyInsert_append ps [] h (fun p _ => rfl)

theorem pyFind?_zip : ∀ (ks : List String) (vs : List String) {k : String},
    k ∈ ks → ks.length ≤ vs.length →
    pyFind? (ks.zip vs) k = some (vs.getD (List.indexOf k ks) "") := by
  intro ks
  induction ks with
  | nil => intro vs k hmem _; simp at hmem
  | cons k0 ks ih =>
    intro vs k hmem hlen
    cases vs with
    | nil => simp at hlen
    | cons v0 vs =>
      rw [List.zip_cons_cons]
      by_cases h0 : k0 = k
      · simp [pyFind?_cons, h0, List.indexOf_cons]
      · have hmem2 : k ∈ ks := by
          rcases List.mem_cons.mp hmem with h | h
          · exact absurd h.symm h0
          · exact h
        have hlen2 : ks.length ≤ vs.length := by simpa using hlen
        have hbeq : (k0 == k) = false := beq_eq_false_iff_ne.mpr h0
        rw [pyFind?_cons, if_neg (by simpa using h0), List.indexOf_cons, hbeq]
        simp only [cond_false, List.getD_cons_succ]
        exact ih vs hmem2 hlen2

theorem padRow_getD (n : Nat) (row : SheetRow) (i : Nat) :
    (padRow n row).getD i "" = row.getD i "" := by
  rw [padRow, List.getD_eq_getElem?_getD, List.getD_eq_getElem?_getD]
  by_cases h : i < row.length
  · rw [List.getElem?_append_left h]
  · push_neg at h
    rw [List.getElem?_append_right h, List.getElem?_replicate,
      List.getElem?_eq_none h]
    by_cases h2 : i - row.length < n - row.length <;> simp [h2]

theorem length_padRow (n : Nat) (row : SheetRow) : n ≤ (padRow n row).length := by
  rw [padRow, List.length_append, List.length_replicate]
  omega

theorem ALL_COLUMNS_nodup : ALL_COLUMNS.Nodup := by decide

theorem pyGetD_rowDict (row : SheetRow) {c : String} (hc : c ∈ ALL_COLUMNS) :
    pyGetD (rowDict ALL_COLUMNS row) c "" = cellOf row c := by
  unfold rowDict
  have hlen : ALL_COLUMNS.length ≤ (padRow ALL_COLUMNS.length row).length :=
    length_padRow _ _
  have hkeys : ((ALL_COLUMNS.zip (padRow ALL_COLUMNS.length row)).map Prod.fst).Nodup := by
    rw [List.map_fst_zip _ _ hlen]
    exact ALL_COLUMNS_nodup
  rw [pyDictOf_eq_self _ hkeys, pyGetD, pyFind?_zip ALL_COLUMNS _ hc hlen,
    Option.getD_some, padRow_getD]
  rfl

theorem getD_map_indexOf : ∀ (ks : List String) (f : String → String) {c : String},
    c ∈ ks → (ks.map f).getD (List.indexOf c ks) "" = f c := by
  intro ks
  induction ks with
  | nil => intro f c hc; simp at hc
  | cons k0 ks ih =>
    intro f c hc
    by_cases h0 : k0 = c
    · simp [List.indexOf_cons, h0]
    · have hc2 : c ∈ ks := by
        rcases List.mem_cons.mp hc with h | h
        · exact absurd h.symm h0
        · exact h
      have hbeq : (k0 == c) = false := beq_eq_false_iff_ne.mpr h0
      rw [List.map_cons, List.indexOf_cons, hbeq]
      simp only [cond_false, List.getD_cons_succ]
      exact ih f hc2

theorem cellOf_map (f : String → String) {c : String} (hc : c ∈ ALL_COLUMNS) :
    cellOf (ALL_COLUMNS.map f) c = f c :=
  getD_map_indexOf ALL_COLUMNS f hc

theorem map_getD_indexOf_self : ∀ (ks : List String) (row : SheetRow),
    ks.Nodup → row.length = ks.length →
    ks.map (fun c => row.getD (List.indexOf c ks) "") = row := by
  intro ks
  induction ks with
  | nil =>
    intro row _ hlen
    rw [List.length_eq_zero.mp hlen]
    rfl
  | cons k0 ks ih =>
    intro row hnd hlen
    cases row with
    | nil => simp at hlen
    | cons x rest =>
      obtain ⟨hk0, hnd2⟩ := List.nodup_cons.mp hnd
      rw [List.map_cons]
      have hhead : (x :: rest).getD (List.indexOf k0 (k0 :: ks)) "" = x := by
        simp [List.indexOf_cons]
      rw [hhead]
      have htail : ks.map (fun c => (x :: rest).getD (List.indexOf c (k0 :: ks)) "") =
          ks.map (fun c => rest.getD (List.indexOf c ks) "") := by
        apply List.map_congr_left
        intro c hcmem
        have hne : (k0 == c) = false :=
          beq_eq_false_iff_ne.mpr (fun h => hk0 (h ▸ hcmem))
        rw [List.indexOf_cons, hne]
        simp only [cond_false, List.getD_cons_succ]
      rw [htail, ih rest hnd2 (by simpa using hlen)]

theorem rowOfDict_rowDict (row : SheetRow) (hlen : row.length = ALL_COLUMNS.length) :
    rowOfDict (rowDict ALL_COLUMNS row) = row := by
  unfold rowOfDict
  have hcongr : ALL_COLUMNS.map (fun c => pyGetD (rowDict ALL_COLUMNS row) c "") =
      ALL_COLUMNS.map (fun c => row.getD (List.indexOf c ALL_COLUMNS) "") :=
    List.map_congr_left (fun c hc => pyGetD_rowDict row hc)
  rw [hcongr]
  exact map_getD_indexOf_self ALL_COLUMNS row ALL_COLUMNS_nodup hlen

theorem cellOf_rowOfDict (d : PyDict String) {c : String} (hc : c ∈ ALL_COLUMNS) :
    cellOf (rowOfDict d) c = pyGetD d c "" :=
  cellOf_map _ hc

theorem length_rowOfDict (d : PyDict String) :
    (rowOfDict d).length = ALL_COLUMNS.length := by
  simp [rowOfDict]

/-! ## Lemmas: the org-number map of the existing sheet -/

theorem keys_pyInsert {α : Type} (m : PyDict α) (k : String) (v : α) :
    (pyInsert m k v).map Prod.fst =
      if m.any (fun p => p.1 == k) then m.map Prod.fst
      else m.map Prod.fst ++ [k] := by
  unfold pyInsert
  by_cases h : m.any (fun p => p.1 == k) = true
  · rw [if_pos h, if_pos h, List.map_map]
    apply List.map_congr_left
    intro p _
    by_cases hp : p.1 = k <;> simp [hp]
  · rw [if_neg h, if_neg h]
    simp

theorem nodup_keys_pyInsert {α : Type} {m : PyDict α} (k : String) (v : α)
    (h : (m.map Prod.fst).Nodup) : ((pyInsert m k v).map Prod.fst).Nodup := by
  rw [keys_pyInsert]
  by_cases hany : m.any (fun p => p.1 == k) = true
  · rwa [if_pos hany]
  · rw [if_neg hany]
    have hk : k ∉ m.map Prod.fst := by
      intro hmem
      obtain ⟨p, hp, hpk⟩ := List.mem_map.mp hmem
      exact hany (List.any_eq_true.mpr ⟨p, hp, by simp [hpk]⟩)
    simp [List.nodup_append, h, hk]

theorem pyFind?_of_mem_nodup {α : Type} {m : PyDict α} {k : String} {v : α}
    (hnd : (m.map Prod.fst).Nodup) (hmem : (k, v) ∈ m) :
    pyFind? m k = some v := by
  induction m with
  | nil => simp at hmem
  | cons p m ih =>
    rw [List.map_cons] at hnd
    obtain ⟨hp, hnd2⟩ := List.nodup_cons.mp hnd
    rcases List.mem_cons.mp hmem with heq | hmem2
    · rw [← heq, pyFind?_cons]
      simp
    · have hne : p.1 ≠ k := by
        intro h
        apply hp
        rw [h]
        exact List.mem_map_of_mem Prod.fst hmem2
      rw [pyFind?_cons, if_neg hne]
      exact ih hnd2 hmem2

theorem isSome_pyFind?_pyInsert {α : Type} {m : PyDict α} {k k' : String} {v : α}
    (h : (pyFind? m k).isSome) : (pyFind? (pyInsert m k' v) k).isSome := by
  rw [pyFind?_pyInsert]
  by_cases hk : k = k' <;> simp [hk, h]

theorem bem_go_mem (P : String × PyDict String → Prop) :
    ∀ (rows : List SheetRow) (m : PyDict (PyDict String)),
      (∀ q ∈ m, P q) →
      (∀ row ∈ rows, pyGetD (rowDict ALL_COLUMNS row) "organisasjonsnummer" "" ≠ "" →
        P (pyGetD (rowDict ALL_COLUMNS row) "organisasjonsnummer" "",
           rowDict ALL_COLUMNS row)) →
      ∀ q ∈ rows.foldl (fun m row =>
          let d := rowDict ALL_COLUMNS row
          let orgnr := pyGetD d "organisasjonsnummer" ""
          if orgnr ≠ "" then pyInsert m orgnr d else m) m, P q := by
  intro rows
  induction rows with
  | nil => intro m hm _ q hq; exact hm q (by simpa using hq)
  | cons row rows ih =>
    intro m hm hrows q hq
    rw [List.foldl_cons] at hq
    refine ih _ ?_ (fun r hr hne => hrows r (List.mem_cons_of_mem _ hr) hne) q hq
    dsimp only
    by_cases hne : pyGetD (rowDict ALL_COLUMNS row) "organisasjonsnummer" "" ≠ ""
    · rw [if_pos hne]
      exact mem_pyInsert hm (hrows row (List.mem_cons_self _ _) hne)
    · rw [if_neg hne]
      exact hm

theorem bem_mem_invariant {rows : List SheetRow} {p : String × PyDict String}
    (hp : p ∈ buildExistingMap (ALL_COLUMNS :: rows)) :
    p.1 ≠ "" ∧ pyGetD p.2 "organisasjonsnummer" "" = p.1 ∧
      ∃ row ∈ rows, p.2 = rowDict ALL_COLUMNS row := by
  refine bem_go_mem
    (fun q => q.1 ≠ "" ∧ pyGetD q.2 "organisasjonsnummer" "" = q.1 ∧
      ∃ row ∈ rows, q.2 = rowDict ALL_COLUMNS row)
    rows [] (fun q hq => by simp at hq)
    (fun row hr hne => ⟨hne, rfl, row, hr, rfl⟩) p hp

theorem bem_go_nodup :
    ∀ (rows : List SheetRow) (m : PyDict (PyDict String)),
      (m.map Prod.fst).Nodup →
      ((rows.foldl (fun m row =>
          let d := rowDict ALL_COLUMNS row
          let orgnr := pyGetD d "organisasjonsnummer" ""
          if orgnr ≠ "" then pyInsert m orgnr d else m) m).map Prod.fst).Nodup := by
  intro rows
  induction rows with
  | nil => intro m hm; simpa using hm
  | cons row rows ih =>
    intro m hm
    rw [List.foldl_cons]
    refine ih _ ?_
    dsimp only
    by_cases hne : pyGetD (rowDict ALL_COLUMNS row) "organisasjonsnummer" "" ≠ ""
    · rw [if_pos hne]
      exact nodup_keys_pyInsert _ _ hm
    · rw [if_neg hne]
      exact hm

theorem bem_keys_nodup (rows : List SheetRow) :
    ((buildExistingMap (ALL_COLUMNS :: rows)).map Prod.fst).Nodup :=
  bem_go_nodup rows [] (by simp)

theorem bem_go_isSome {k : String} :
    ∀ (rows : List SheetRow) (m : PyDict (PyDict String)),
      ((pyFind? m k).isSome ∨
        ∃ row ∈ rows,
          pyGetD (rowDict ALL_COLUMNS row) "organisasjonsnummer" "" = k ∧ k ≠ "") →
      (pyFind? (rows.foldl (fun m row =>
          let d := rowDict ALL_COLUMNS row
          let orgnr := pyGetD d "organisasjonsnummer" ""
          if orgnr ≠ "" then pyInsert m orgnr d else m) m) k).isSome := by
  intro rows
  induction rows with
  | nil =>
    intro m h
    rcases h with h | ⟨row, hr, -⟩
    · simpa using h
    · simp at hr
  | cons row rows ih =>
    intro m h
    rw [List.foldl_cons]
    apply ih
    dsimp only
    rcases h with h | ⟨row2, hr2, hkey, hkne⟩
    · left
      by_cases hne : pyGetD (rowDict ALL_COLUMNS row) "organisasjonsnummer" "" ≠ ""
      · rw [if_pos hne]
        exact isSome_pyFind?_pyInsert h
      · rwa [if_neg hne]
    · rcases List.mem_cons.mp hr2 with heq | hmem
      · left
        subst heq
        rw [if_pos (hkey ▸ hkne), hkey, pyFind?_pyInsert]
        simp
      · right
        exact ⟨row2, hmem, hkey, hkne⟩

theorem bem_isSome {rows : List SheetRow} {k : String} (hk : k ≠ "")
    (hrow : ∃ row ∈ rows, cellOf row "organisasjonsnummer" = k) :
    (pyFind? (buildExistingMap (ALL_COLUMNS :: rows)) k).isSome := by
  obtain ⟨row, hr, hcell⟩ := hrow
  refine bem_go_isSome rows [] (Or.inr ⟨row, hr, ?_, hk⟩)
  rw [pyGetD_rowDict row (by decide : "organisasjonsnummer" ∈ ALL_COLUMNS)]
  exact hcell

/-! ## Lemmas: the rows a sync writes -/

theorem sales_facts : ∀ c ∈ SALES_COLUMNS,
    c ≠ "cluster_id" ∧ c ≠ "cluster_name" ∧ c ≠ "import_timestamp" ∧
    SALES_COLUMNS.contains c = true := by decide

theorem sales_sub_all : ∀ c ∈ SALES_COLUMNS, c ∈ ALL_COLUMNS := by decide

theorem script_sub_all : ∀ c ∈ SCRIPT_COLUMNS, c ∈ ALL_COLUMNS := by decide

theorem script_not_sales : ∀ c ∈ SCRIPT_COLUMNS,
    SALES_COLUMNS.contains c = false := by decide

theorem mem_sync_rows {sheet : List SheetRow} {csv : List CsvRow}
    {area_name cluster_id import_timestamp : String} {row : SheetRow} :
    row ∈ (sync_companies sheet csv area_name cluster_id import_timestamp).rows ↔
      ((∃ r ∈ csv, orgKey r ≠ "" ∧
          row = newRow (buildExistingMap (ensureHeaders sheet))
            cluster_id area_name import_timestamp r) ∨
       (∃ p ∈ buildExistingMap (ensureHeaders sheet),
          (csv.map orgKey).contains p.1 = false ∧ row = rowOfDict p.2)) := by
  unfold sync_companies
  dsimp only
  rw [mem_sortBy, List.mem_append]
  constructor
  · intro h
    rcases h with h1 | h1
    · obtain ⟨r, hr, heq⟩ := List.mem_map.mp h1
      obtain ⟨hrcsv, hrkey⟩ := List.mem_filter.mp hr
      exact Or.inl ⟨r, hrcsv, by simpa using hrkey, heq.symm⟩
    · obtain ⟨p, hp, heq⟩ := List.mem_map.mp h1
      obtain ⟨hpem, hpred⟩ := List.mem_filter.mp hp
      refine Or.inr ⟨p, hpem, ?_, heq.symm⟩
      simpa using hpred
  · intro h
    rcases h with ⟨r, hrcsv, hkey, heq⟩ | ⟨p, hpem, hcont, heq⟩
    · exact Or.inl (heq ▸ List.mem_map_of_mem _
        (List.mem_filter.mpr ⟨hrcsv, by simpa using hkey⟩))
    · exact Or.inr (heq ▸ List.mem_map_of_mem _
        (List.mem_filter.mpr ⟨hpem, by simp only [hcont]; decide⟩))

theorem cellOf_newRow (em : PyDict (PyDict String)) (cid area ts : String)
    (r : CsvRow) {c : String} (hc : c ∈ ALL_COLUMNS) :
    cellOf (newRow em cid area ts r) c =
      (if c = "cluster_id" then cid
       else if c = "cluster_name" then area
       else if c = "import_timestamp" then ts
       else if SALES_COLUMNS.contains c then salesVal em (orgKey r) c
       else scriptVal r c) :=
  cellOf_map _ hc

theorem cellOf_newRow_sales (em : PyDict (PyDict String)) (cid area ts : String)
    (r : CsvRow) {c : String} (hc : c ∈ SALES_COLUMNS) :
    cellOf (newRow em cid area ts r) c = salesVal em (orgKey r) c := by
  obtain ⟨h1, h2, h3, h4⟩ := sales_facts c hc
  rw [cellOf_newRow em cid area ts r (sales_sub_all c hc),
    if_neg h1, if_neg h2, if_neg h3, if_pos h4]

theorem cellOf_newRow_script (em : PyDict (PyDict String)) (cid area ts : String)
    (r : CsvRow) {c : String} (hc : c ∈ SCRIPT_COLUMNS)
    (h1 : c ≠ "cluster_id") (h2 : c ≠ "cluster_name")
    (h3 : c ≠ "import_timestamp") :
    cellOf (newRow em cid area ts r) c = scriptVal r c := by
  rw [cellOf_newRow em cid area ts r (script_sub_all c hc),
    if_neg h1, if_neg h2, if_neg h3,
    if_neg (by rw [script_not_sales c hc]; simp)]

theorem cellOf_newRow_cluster (em : PyDict (PyDict String)) (cid area ts : String)
    (r : CsvRow) :
    cellOf (newRow em cid area ts r) "cluster_id" = cid ∧
    cellOf (newRow em cid area ts r) "cluster_name" = area ∧
    cellOf (newRow em cid area ts r) "import_timestamp" = ts := by
  refine ⟨?_, ?_, ?_⟩ <;>
    rw [cellOf_newRow em cid area ts r (by decide)] <;> simp

theorem cellOf_newRow_org (em : PyDict (PyDict String)) (cid area ts : String)
    (r : CsvRow) :
    cellOf (newRow em cid area ts r) "organisasjonsnummer" =
      scriptVal r "organisasjonsnummer" :=
  cellOf_newRow_script em cid area ts r (by decide) (by decide) (by decide)
    (by decide)

theorem scriptVal_org_eq {r : CsvRow} {k : String} (hk : k ≠ "")
    (h : scriptVal r "organisasjonsnummer" = k) :
    csvCell r "organisasjonsnummer" = some k := by
  unfold scriptVal at h
  cases hcell : csvCell r "organisasjonsnummer" with
  | none =>
    rw [hcell] at h
    dsimp only at h
    rw [if_neg (by simp)] at h
    exact absurd h.symm hk
  | some s =>
    rw [hcell] at h
    dsimp only at h
    rw [if_neg (by rintro ⟨h1, -⟩; exact absurd h1 (by decide))] at h
    rw [h]

theorem scriptVal_org_of_cell {r : CsvRow} {k : String}
    (h : csvCell r "organisasjonsnummer" = some k) :
    scriptVal r "organisasjonsnummer" = k := by
  unfold scriptVal
  rw [h]
  dsimp only
  rw [if_neg (by rintro ⟨h1, -⟩; exact absurd h1 (by decide))]

theorem orgKey_of_cell {r : CsvRow} {k : String}
    (h : csvCell r "organisasjonsnummer" = some k) : orgKey r = k := by
  unfold orgKey csvStr
  rw [h]

theorem cell_of_orgKey {r : CsvRow}
    (hnan : csvCell r "organisasjonsnummer" ≠ none)
    : csvCell r "organisasjonsnummer" = some (orgKey r) := by
  cases h : csvCell r "organisasjonsnummer" with
  | none => exact absurd h hnan
  | some s =>
    unfold orgKey csvStr
    rw [h]

theorem ensureHeaders_eq (sheet : List SheetRow) :
    ∃ rows, ensureHeaders sheet = ALL_COLUMNS :: rows := by
  unfold ensureHeaders
  cases sheet with
  | nil => exact ⟨[], rfl⟩
  | cons h t =>
    by_cases hh : h = ALL_COLUMNS
    · exact ⟨t, by dsimp only; rw [if_pos hh, hh]⟩
    · exact ⟨t, by dsimp only; rw [if_neg hh]⟩

theorem ensureHeaders_all_cons (rs : List SheetRow) :
    ensureHeaders (ALL_COLUMNS :: rs) = ALL_COLUMNS :: rs := by
  unfold ensureHeaders
  dsimp only
  rw [if_pos rfl]

theorem bem_entry_key {sheet : List SheetRow} {p : String × PyDict String}
    (hp : p ∈ buildExistingMap (ensureHeaders sheet)) :
    p.1 ≠ "" ∧ pyGetD p.2 "organisasjonsnummer" "" = p.1 := by
  obtain ⟨rows0, h0⟩ := ensureHeaders_eq sheet
  rw [h0] at hp
  exact ⟨(bem_mem_invariant hp).1, (bem_mem_invariant hp).2.1⟩

theorem bem_keys_nodup_sheet (sheet : List SheetRow) :
    ((buildExistingMap (ensureHeaders sheet)).map Prod.fst).Nodup := by
  obtain ⟨rows0, h0⟩ := ensureHeaders_eq sheet
  rw [h0]
  exact bem_keys_nodup rows0

/-! ## C1: merge-safety of a sync -/

/-- C1: for an org number present both in the incoming batch (as the string
value of some row's organisasjonsnummer cell) and in the existing sheet's
org-number map, the sync output contains a row keyed by it; every output row
keyed by it carries the five human-owned sales columns exactly as stored in
the prior sheet row for that org number, while its pipeline-owned columns are
recomputed - the cluster columns from the run's parameters and the remaining
script columns from a batch row with that org key. -/
theorem C1_sync_merge_preserves_sales (sheet : List SheetRow) (csv : List CsvRow)
    (area_name cluster_id import_timestamp k : String) (d : PyDict String)
    (hk : k ≠ "")
    (hbatch : ∃ r ∈ csv, csvCell r "organisasjonsnummer" = some k)
    (hprior : pyFind? (buildExistingMap (ensureHeaders sheet)) k = some d) :
    (∃ row ∈ (sync_companies sheet csv area_name cluster_id import_timestamp).rows,
      cellOf row "organisasjonsnummer" = k) ∧
    (∀ row ∈ (sync_companies sheet csv area_name cluster_id import_timestamp).rows,
      cellOf row "organisasjonsnummer" = k →
      (∀ c ∈ SALES_COLUMNS, cellOf row c = pyGetD d c "") ∧
      (∃ r ∈ csv, orgKey r = k ∧
        cellOf row "cluster_id" = cluster_id ∧
        cellOf row "cluster_name" = area_name ∧
        cellOf row "import_timestamp" = import_timestamp ∧
        ∀ c ∈ SCRIPT_COLUMNS, c ≠ "cluster_id" → c ≠ "cluster_name" →
          c ≠ "import_timestamp" → cellOf row c = scriptVal r c)) := by
  obtain ⟨r0, hr0, hcell0⟩ := hbatch
  have hkey0 : orgKey r0 = k := orgKey_of_cell hcell0
  constructor
  · refine ⟨newRow (buildExistingMap (ensureHeaders sheet))
      cluster_id area_name import_timestamp r0,
      mem_sync_rows.mpr (Or.inl ⟨r0, hr0, by rw [hkey0]; exact hk, rfl⟩), ?_⟩
    rw [cellOf_newRow_org, scriptVal_org_of_cell hcell0]
  · intro row hrow hcellk
    rcases mem_sync_rows.mp hrow with ⟨r, hr, hkne, heq⟩ | ⟨p, hpem, hcont, heq⟩
    · subst heq
      rw [cellOf_newRow_org] at hcellk
      have hcellr : csvCell r "organisasjonsnummer" = some k :=
        scriptVal_org_eq hk hcellk
      have hkeyr : orgKey r = k := orgKey_of_cell hcellr
      constructor
      · intro c hc
        rw [cellOf_newRow_sales _ _ _ _ _ hc, hkeyr]
        unfold salesVal
        rw [hprior]
      · obtain ⟨hc1, hc2, hc3⟩ := cellOf_newRow_cluster
          (buildExistingMap (ensureHeaders sheet)) cluster_id area_name
          import_timestamp r
        exact ⟨r, hr, hkeyr, hc1, hc2, hc3, fun c hc h1 h2 h3 =>
          cellOf_newRow_script _ _ _ _ _ hc h1 h2 h3⟩
    · exfalso
      subst heq
      rw [cellOf_rowOfDict _ (by decide : "organisasjonsnummer" ∈ ALL_COLUMNS)]
        at hcellk
      have hkey : p.1 = k := by rw [← (bem_entry_key hpem).2, hcellk]
      have hmemK : (csv.map orgKey).contains p.1 = true := by
        rw [hkey, ← hkey0]
        exact List.elem_eq_true_of_mem (List.mem_map_of_mem orgKey hr0)
      rw [hcont] at hmemK
      exact Bool.false_ne_true hmemK

/-- Witness for C1: org number "111" appears in the sheet and the batch; the
synced output has a row for it. -/
theorem C1_sync_merge_preserves_sales_witness :
    ∃ row ∈ (sync_companies exSheet exCsv "area" "CID" "TS").rows,
      cellOf row "organisasjonsnummer" = "111" :=
  (C1_sync_merge_preserves_sales exSheet exCsv "area" "CID" "TS" "111"
    (rowDict ALL_COLUMNS exRow111) (by decide) (by decide) (by decide)).1

/-! ## C2: preservation of out-of-batch rows -/

/-- Counterexample to C2 as stated: the sheet holds a row with org number
"nan" and the batch's only row has a missing (NaN) org-number cell - so
"nan" is absent from the batch's org numbers - yet after the sync no output
row matches the prior "nan" row on every column: `str()` turns the NaN cell
into the key "nan", which captures and rekeys the sheet row instead of
preserving it. -/
theorem C2_sync_counterexample :
    pyFind? (buildExistingMap (ensureHeaders nanSheet)) "nan"
      = some (rowDict ALL_COLUMNS nanRow) ∧
    (∀ r ∈ nanCsv, csvCell r "organisasjonsnummer" ≠ some "nan") ∧
    ¬ ∃ row ∈ (sync_companies nanSheet nanCsv "area" "CID" "TS").rows,
      ∀ c ∈ ALL_COLUMNS,
        cellOf row c = pyGetD (rowDict ALL_COLUMNS nanRow) c "" :=
  ⟨by decide, by decide, by decide⟩

/-- C2 amended: every org number of the prior sheet that differs from the
stringified org key of every batch row (a missing org-number cell stringifies
to "nan") appears in the post-sync rows with every column value unchanged -
only its position may differ due to the final sort; no such row is deleted. -/
theorem C2_sync_preserves_unmatched_rows (sheet : List SheetRow)
    (csv : List CsvRow) (area_name cluster_id import_timestamp k : String)
    (d : PyDict String)
    (hprior : pyFind? (buildExistingMap (ensureHeaders sheet)) k = some d)
    (habsent : (csv.map orgKey).contains k = false) :
    ∃ row ∈ (sync_companies sheet csv area_name cluster_id import_timestamp).rows,
      cellOf row "organisasjonsnummer" = k ∧
      ∀ c ∈ ALL_COLUMNS, cellOf row c = pyGetD d c "" := by
  have hmem : (k, d) ∈ buildExistingMap (ensureHeaders sheet) := pyFind?_mem hprior
  refine ⟨rowOfDict d,
    mem_sync_rows.mpr (Or.inr ⟨(k, d), hmem, habsent, rfl⟩), ?_, ?_⟩
  · rw [cellOf_rowOfDict _ (by decide : "organisasjonsnummer" ∈ ALL_COLUMNS)]
    exact (bem_entry_key hmem).2
  · exact fun c hc => cellOf_rowOfDict d hc

/-- Witness for C2 amended: org number "222" is in the sheet and not among the
batch's org keys; its row survives the sync unchanged. -/
theorem C2_sync_preserves_unmatched_rows_witness :
    ∃ row ∈ (sync_companies exSheet exCsv "area" "CID" "TS").rows,
      cellOf row "organisasjonsnummer" = "222" ∧
      ∀ c ∈ ALL_COLUMNS,
        cellOf row c = pyGetD (rowDict ALL_COLUMNS exRow222) c "" :=
  C2_sync_preserves_unmatched_rows exSheet exCsv "area" "CID" "TS" "222"
    (rowDict ALL_COLUMNS exRow222) (by decide) (by decide)

/-! ## Lemmas toward idempotence of sync -/

theorem sales_of_sync_row {sheet : List SheetRow} {csv : List CsvRow}
    {area_name cluster_id import_timestamp : String} {row : SheetRow} {k : String}
    (hrow : row ∈ (sync_companies sheet csv area_name cluster_id import_timestamp).rows)
    (hcell : cellOf row "organisasjonsnummer" = k)
    (hk : k ≠ "")
    (hkK : (csv.map orgKey).contains k = true) :
    ∀ c ∈ SALES_COLUMNS, cellOf row c =
      salesVal (buildExistingMap (ensureHeaders sheet)) k c := by
  intro c hc
  rcases mem_sync_rows.mp hrow with ⟨r, hr, hkne, heq⟩ | ⟨p, hpem, hcont, heq⟩
  · subst heq
    rw [cellOf_newRow_org] at hcell
    have hkeyr : orgKey r = k := orgKey_of_cell (scriptVal_org_eq hk hcell)
    rw [cellOf_newRow_sales _ _ _ _ _ hc, hkeyr]
  · exfalso
    subst heq
    rw [cellOf_rowOfDict _ (by decide : "organisasjonsnummer" ∈ ALL_COLUMNS)]
      at hcell
    have hkey : p.1 = k := by rw [← (bem_entry_key hpem).2, hcell]
    rw [hkey, hkK] at hcont
    exact Bool.false_ne_true hcont.symm

theorem preserved_of_sync_row {sheet : List SheetRow} {csv : List CsvRow}
    {area_name cluster_id import_timestamp : String} {row : SheetRow} {k : String}
    (hrow : row ∈ (sync_companies sheet csv area_name cluster_id import_timestamp).rows)
    (hcell : cellOf row "organisasjonsnummer" = k)
    (hk : k ≠ "")
    (hnotK : (csv.map orgKey).contains k = false) :
    ∃ d1, pyFind? (buildExistingMap (ensureHeaders sheet)) k = some d1 ∧
      row = rowOfDict d1 := by
  rcases mem_sync_rows.mp hrow with ⟨r, hr, hkne, heq⟩ | ⟨p, hpem, hcont, heq⟩
  · exfalso
    subst heq
    rw [cellOf_newRow_org] at hcell
    have hkeyr : orgKey r = k := orgKey_of_cell (scriptVal_org_eq hk hcell)
    have hmem : (csv.map orgKey).contains k = true := by
      rw [← hkeyr]
      exact List.elem_eq_true_of_mem (List.mem_map_of_mem orgKey hr)
    rw [hnotK] at hmem
    exact Bool.false_ne_true hmem
  · subst heq
    rw [cellOf_rowOfDict _ (by decide : "organisasjonsnummer" ∈ ALL_COLUMNS)]
      at hcell
    have hkey : p.1 = k := by rw [← (bem_entry_key hpem).2, hcell]
    refine ⟨p.2, ?_, rfl⟩
    rw [← hkey]
    exact pyFind?_of_mem_nodup (bem_keys_nodup_sheet sheet) hpem

theorem bem2_find {rows1 : List SheetRow} {k : String} (hk : k ≠ "")
    (hexists : ∃ row ∈ rows1, cellOf row "organisasjonsnummer" = k) :
    ∃ d2, pyFind? (buildExistingMap (ALL_COLUMNS :: rows1)) k = some d2 ∧
      ∃ row2 ∈ rows1, cellOf row2 "organisasjonsnummer" = k ∧
        d2 = rowDict ALL_COLUMNS row2 := by
  obtain ⟨d2, hd2⟩ := Option.isSome_iff_exists.mp (bem_isSome hk hexists)
  obtain ⟨-, hkeyd, row2, hrow2, heq⟩ := bem_mem_invariant (pyFind?_mem hd2)
  refine ⟨d2, hd2, row2, hrow2, ?_, heq⟩
  rw [← pyGetD_rowDict row2 (by decide : "organisasjonsnummer" ∈ ALL_COLUMNS), ← heq]
  exact hkeyd

theorem nodup_preserved_rows (sheet : List SheetRow) (K : List String) :
    (((buildExistingMap (ensureHeaders sheet)).filter
        (fun p => ¬ K.contains p.1)).map (fun p => rowOfDict p.2)).Nodup := by
  have hkeys := bem_keys_nodup_sheet sheet
  have hmnd : (buildExistingMap (ensureHeaders sheet)).Nodup := hkeys.of_map
  apply List.Nodup.map_on ?_ (hmnd.filter _)
  intro p hp q hq heq
  have hpem := (List.mem_filter.mp hp).1
  have hqem := (List.mem_filter.mp hq).1
  have hpk := (bem_entry_key hpem).2
  have hqk := (bem_entry_key hqem).2
  have hkeyeq : p.1 = q.1 := by
    rw [← hpk, ← hqk,
      ← cellOf_rowOfDict p.2 (by decide : "organisasjonsnummer" ∈ ALL_COLUMNS),
      ← cellOf_rowOfDict q.2 (by decide : "organisasjonsnummer" ∈ ALL_COLUMNS),
      heq]
  have hfp := pyFind?_of_mem_nodup hkeys hpem
  have hfq := pyFind?_of_mem_nodup hkeys hqem
  rw [hkeyeq, hfq] at hfp
  exact Prod.ext hkeyeq (Option.some_inj.mp hfp.symm)

theorem sync_rows_eq (sheet : List SheetRow) (csv : List CsvRow)
    (area_name cluster_id import_timestamp : String) :
    (sync_companies sheet csv area_name cluster_id import_timestamp).rows =
      sortBy (fun a b => pyStrLe (sheetSortKey a) (sheetSortKey b))
        ((csv.filter (fun r => orgKey r ≠ "")).map
           (newRow (buildExistingMap (ensureHeaders sheet))
             cluster_id area_name import_timestamp) ++
         ((buildExistingMap (ensureHeaders sheet)).filter
            (fun p => ¬ (csv.map orgKey).contains p.1)).map
           (fun p => rowOfDict p.2)) := rfl

theorem preserved_rows_perm (sheet : List SheetRow) (csv : List CsvRow)
    (area_name cid1 ts1 : String) :
    (((buildExistingMap (ALL_COLUMNS ::
          (sync_companies sheet csv area_name cid1 ts1).rows)).filter
        (fun p => ¬ (csv.map orgKey).contains p.1)).map
      (fun p => rowOfDict p.2)).Perm
    (((buildExistingMap (ensureHeaders sheet)).filter
        (fun p => ¬ (csv.map orgKey).contains p.1)).map
      (fun p => rowOfDict p.2)) := by
  have hnd2 : (((buildExistingMap (ALL_COLUMNS ::
        (sync_companies sheet csv area_name cid1 ts1).rows)).filter
      (fun p => ¬ (csv.map orgKey).contains p.1)).map
        (fun p => rowOfDict p.2)).Nodup := by
    have := nodup_preserved_rows
      (ALL_COLUMNS :: (sync_companies sheet csv area_name cid1 ts1).rows)
      (csv.map orgKey)
    rwa [ensureHeaders_all_cons] at this
  have hnd1 := nodup_preserved_rows sheet (csv.map orgKey)
  rw [List.perm_ext_iff_of_nodup hnd2 hnd1]
  intro row
  constructor
  · intro h
    obtain ⟨p2, hp2f, heqrow⟩ := List.mem_map.mp h
    obtain ⟨hp2em, hpred2⟩ := List.mem_filter.mp hp2f
    have hpredF : (csv.map orgKey).contains p2.1 = false := by simpa using hpred2
    obtain ⟨hp2ne, hp2key, row2, hrow2, hd⟩ := bem_mem_invariant hp2em
    have hcellrow2 : cellOf row2 "organisasjonsnummer" = p2.1 := by
      rw [← pyGetD_rowDict row2 (by decide : "organisasjonsnummer" ∈ ALL_COLUMNS),
        ← hd]
      exact hp2key
    obtain ⟨d1, hd1, hrow2eq⟩ := preserved_of_sync_row hrow2 hcellrow2 hp2ne hpredF
    have hroweq : row = rowOfDict d1 := by
      rw [← heqrow, hd, hrow2eq, rowOfDict_rowDict _ (length_rowOfDict d1)]
    exact List.mem_map.mpr ⟨(p2.1, d1),
      List.mem_filter.mpr ⟨pyFind?_mem hd1, by simp only [hpredF]; decide⟩, hroweq.symm⟩
  · intro h
    obtain ⟨p1, hp1f, heqrow⟩ := List.mem_map.mp h
    obtain ⟨hp1em, hpred1⟩ := List.mem_filter.mp hp1f
    have hpredF : (csv.map orgKey).contains p1.1 = false := by simpa using hpred1
    obtain ⟨hp1ne, hp1key⟩ := bem_entry_key hp1em
    have hrowR1 : row ∈ (sync_companies sheet csv area_name cid1 ts1).rows := by
      rw [← heqrow]
      exact mem_sync_rows.mpr (Or.inr ⟨p1, hp1em, hpredF, rfl⟩)
    have hcellrow : cellOf row "organisasjonsnummer" = p1.1 := by
      rw [← heqrow,
        cellOf_rowOfDict _ (by decide : "organisasjonsnummer" ∈ ALL_COLUMNS)]
      exact hp1key
    obtain ⟨d2, hd2, row2', hrow2', hcell2', hd2eq⟩ :=
      bem2_find hp1ne ⟨row, hrowR1, hcellrow⟩
    obtain ⟨d1', hd1', hrow2eq'⟩ :=
      preserved_of_sync_row hrow2' hcell2' hp1ne hpredF
    have hd1'eq : d1' = p1.2 := by
      have hfp1 := pyFind?_of_mem_nodup (bem_keys_nodup_sheet sheet) hp1em
      rw [hd1'] at hfp1
      exact Option.some_inj.mp hfp1
    have hrow2row : row2' = row := by
      rw [hrow2eq', hd1'eq, heqrow]
    have hfinal : rowOfDict d2 = row := by
      rw [hd2eq, hrow2row, ← heqrow]
      exact rowOfDict_rowDict _ (length_rowOfDict p1.2)
    exact List.mem_map.mpr ⟨(p1.1, d2),
      List.mem_filter.mpr ⟨pyFind?_mem hd2, by simp only [hpredF]; decide⟩, hfinal⟩

theorem scrub_newRow_eq (sheet : List SheetRow) (csv : List CsvRow)
    (area_name cid1 cid2 ts1 ts2 : String) (r : CsvRow)
    (hrcsv : r ∈ csv) (hkne : orgKey r ≠ "")
    (hcell : csvCell r "organisasjonsnummer" = some (orgKey r)) :
    scrubVolatile (newRow
        (buildExistingMap (ALL_COLUMNS ::
          (sync_companies sheet csv area_name cid1 ts1).rows))
        cid2 area_name ts2 r) =
      scrubVolatile (newRow (buildExistingMap (ensureHeaders sheet))
        cid1 area_name ts1 r) := by
  have hmem1 : newRow (buildExistingMap (ensureHeaders sheet)) cid1 area_name ts1 r
      ∈ (sync_companies sheet csv area_name cid1 ts1).rows :=
    mem_sync_rows.mpr (Or.inl ⟨r, hrcsv, hkne, rfl⟩)
  have horg1 : cellOf (newRow (buildExistingMap (ensureHeaders sheet))
      cid1 area_name ts1 r) "organisasjonsnummer" = orgKey r := by
    rw [cellOf_newRow_org]
    exact scriptVal_org_of_cell hcell
  obtain ⟨d2, hd2, row2, hrow2, hcell2, hd2eq⟩ :=
    bem2_find hkne ⟨_, hmem1, horg1⟩
  have hkK : (csv.map orgKey).contains (orgKey r) = true :=
    List.elem_eq_true_of_mem (List.mem_map_of_mem orgKey hrcsv)
  have hsalesrow2 := sales_of_sync_row hrow2 hcell2 hkne hkK
  have hsales2 : ∀ c ∈ SALES_COLUMNS,
      salesVal (buildExistingMap (ALL_COLUMNS ::
        (sync_companies sheet csv area_name cid1 ts1).rows)) (orgKey r) c =
      salesVal (buildExistingMap (ensureHeaders sheet)) (orgKey r) c := by
    intro c hc
    have hL : salesVal (buildExistingMap (ALL_COLUMNS ::
        (sync_companies sheet csv area_name cid1 ts1).rows)) (orgKey r) c =
        pyGetD d2 c "" := by
      unfold salesVal
      rw [hd2]
    rw [hL, hd2eq, pyGetD_rowDict row2 (sales_sub_all c hc)]
    exact hsalesrow2 c hc
  unfold scrubVolatile
  apply List.map_congr_left
  intro c hcall
  by_cases hvol : c = "import_timestamp" ∨ c = "cluster_id"
  · rw [if_pos hvol, if_pos hvol]
  · rw [if_neg hvol, if_neg hvol]
    push_neg at hvol
    obtain ⟨hnts, hncid⟩ := hvol
    rw [cellOf_newRow _ _ _ _ _ hcall, cellOf_newRow _ _ _ _ _ hcall]
    rw [if_neg hncid, if_neg hncid]
    by_cases hcn : c = "cluster_name"
    · rw [if_pos hcn, if_pos hcn]
    · rw [if_neg hcn, if_neg hcn, if_neg hnts, if_neg hnts]
      by_cases hs : SALES_COLUMNS.contains c = true
      · rw [if_pos hs, if_pos hs]
        exact hsales2 c (List.mem_of_elem_eq_true hs)
      · rw [if_neg hs, if_neg hs]

/-- C3 counterexample: on `nanSheet`/`nanCsv` (a CSV row whose org-number cell
is NaN, stringified to the dict key "nan" while the written cell is blank), a
second identical sync does not reproduce the first sheet even after blanking
the volatile `import_timestamp`/`cluster_id` columns: the carried-over sales
status "Interessert" is reset to "not started yet". So `sync_companies` is not
idempotent in general. -/
theorem C3_sync_counterexample :
    ¬ (((sync_companies (syncSheetState nanSheet nanCsv "Area" "c2" "t2")
          nanCsv "Area" "c3" "t3").rows.map scrubVolatile).Perm
        ((sync_companies nanSheet nanCsv "Area" "c2" "t2").rows.map
          scrubVolatile)) := by decide

/-- C3 (amended): if every CSV row has a non-NaN org-number cell, then running
`sync_companies` a second time on the sheet produced by a first run, with the
same CSV batch and area name (the cluster id and timestamp may differ), yields
the same rows up to ordering once the volatile `import_timestamp` and
`cluster_id` columns are blanked: script and sales data are stable under
re-sync. -/
theorem C3_sync_idempotent_amended (sheet : List SheetRow) (csv : List CsvRow)
    (area_name cid1 cid2 ts1 ts2 : String)
    (hcsv : ∀ r ∈ csv, csvCell r "organisasjonsnummer" ≠ none) :
    ((sync_companies (syncSheetState sheet csv area_name cid1 ts1) csv
        area_name cid2 ts2).rows.map scrubVolatile).Perm
      ((sync_companies sheet csv area_name cid1 ts1).rows.map scrubVolatile) := by
  unfold syncSheetState
  have hsync2 := sync_rows_eq
    (ALL_COLUMNS :: (sync_companies sheet csv area_name cid1 ts1).rows)
    csv area_name cid2 ts2
  rw [ensureHeaders_all_cons] at hsync2
  rw [hsync2]
  conv_rhs => rw [sync_rows_eq sheet csv area_name cid1 ts1]
  refine ((sortBy_perm _ _).map scrubVolatile).trans
    (List.Perm.trans ?_ (((sortBy_perm _ _).map scrubVolatile).symm))
  rw [List.map_append, List.map_append]
  refine List.Perm.append ?_
    ((preserved_rows_perm sheet csv area_name cid1 ts1).map scrubVolatile)
  rw [List.map_map, List.map_map]
  have hA : (csv.filter (fun r => orgKey r ≠ "")).map
      (scrubVolatile ∘ newRow (buildExistingMap (ALL_COLUMNS ::
        (sync_companies sheet csv area_name cid1 ts1).rows))
        cid2 area_name ts2) =
    (csv.filter (fun r => orgKey r ≠ "")).map
      (scrubVolatile ∘ newRow (buildExistingMap (ensureHeaders sheet))
        cid1 area_name ts1) := by
    apply List.map_congr_left
    intro r hr
    obtain ⟨hrcsv, hkneD⟩ := List.mem_filter.mp hr
    have hkne : orgKey r ≠ "" := by simpa using hkneD
    exact scrub_newRow_eq sheet csv area_name cid1 cid2 ts1 ts2 r hrcsv hkne
      (cell_of_orgKey (hcsv r hrcsv))
  rw [hA]

theorem C3_sync_idempotent_amended_witness :
    ((sync_companies (syncSheetState exSheet exCsv "Area" "c2" "t2")
        exCsv "Area" "c3" "t3").rows.map scrubVolatile).Perm
      ((sync_companies exSheet exCsv "Area" "c2" "t2").rows.map scrubVolatile) :=
  C3_sync_idempotent_amended exSheet exCsv "Area" "c2" "c3" "t2" "t3" (by decide)
